import Mathlib

/-!
Verification of the policy resolution-and-reconciliation engine of
`api/tacticalrmm/automation/models.py`.

The Django model methods are shallowly embedded as pure Lean functions:
querysets become lists, row mutation becomes explicit state passing
(the cascade functions return both their Python return value and the new
contents of the agent's check/task tables), and the external collaborators
(`Agent.get_agent_policies`, `Agent.is_supported_script`,
`Check.create_policy_check`, `Task.create_policy_task`) become inputs or
spec-modelled definitions.
-/

/-- The seven check types handled by `Policy.cascade_policy_checks`. -/
inductive CheckType
  | diskspace
  | ping
  | cpuload
  | memory
  | winsvc
  | script
  | eventlog
deriving DecidableEq

/-- A script referenced by a script check or an automated task
(only the fields the cascade logic reads: `script.id`, `script.shell`). -/
structure Script where
  id : Nat
  shell : String
deriving DecidableEq

/-- A row of the `checks` table, restricted to the fields read or written by
`automation/models.py`.  `agent = none` means the check is a policy template
(its `agent` foreign key is null); `parent_check` stores the pk of the
template a managed check was generated from. -/
structure Check where
  pk : Nat
  check_type : CheckType
  disk : String
  ip : String
  svc_name : String
  script : Script
  log_name : String
  event_id : Nat
  agent : Option Nat
  managed_by_policy : Bool
  parent_check : Option Nat
  overriden_by_policy : Bool
  sync_status : String
deriving DecidableEq

/-- A row of the `autotasks` table, restricted to the fields read or written
by `automation/models.py`. -/
structure AutoTask where
  pk : Nat
  script : Script
  managed_by_policy : Bool
  parent_task : Option Nat
  sync_status : String
deriving DecidableEq

/-- A policy as consumed by the cascade resolvers: its `active` / `enforced`
flags and its owned template checks (`policy.policychecks`) and template
tasks (`policy.autotasks`). -/
structure PolicyT where
  active : Bool
  enforced : Bool
  policychecks : List Check
  autotasks : List AutoTask

/-- The result of `agent.get_agent_policies()` (external collaborator,
spec §6 `LocatePolicyHierarchy`): the up-to-four applicable policies. -/
structure AgentPolicies where
  agent_policy : Option PolicyT
  site_policy : Option PolicyT
  client_policy : Option PolicyT
  default_policy : Option PolicyT

/-- The agent state consumed and mutated by the cascade resolvers:
its platform, its script-compatibility predicate
(`agent.is_supported_script`, external collaborator), and the current
contents of its `agentchecks` and `autotasks` tables. -/
structure CAgent where
  pk : Nat
  plat : String
  is_supported_script : String → Bool
  agentchecks : List Check
  autotasks : List AutoTask

/-- The four policies in the order the source consults them:
agent, site, client, default. -/
def policyList (policies : AgentPolicies) : List (Option PolicyT) :=
  [policies.agent_policy, policies.site_policy, policies.client_policy,
   policies.default_policy]

/-- `agent_checks`: checks added to the agent directly
(`agent.agentchecks.filter(managed_by_policy=False)`). -/
def directChecks (agent : CAgent) : List Check :=
  agent.agentchecks.filter (fun c => c.managed_by_policy = false)

/-- `agent_checks_parent_pks`: the `parent_check` values of the agent's
currently managed checks. -/
def checkParentPks (agent : CAgent) : List (Option Nat) :=
  (agent.agentchecks.filter (fun c => c.managed_by_policy = true)).map
    (fun c => c.parent_check)

/-- `enforced_checks`: template checks of the active, enforced policies,
collected in agent/site/client/default order. -/
def enforcedChecksOf (policies : AgentPolicies) : List Check :=
  (policyList policies).foldl
    (fun acc p =>
      match p with
      | none => acc
      | some pol =>
          if pol.active = true ∧ pol.enforced = true then acc ++ pol.policychecks
          else acc)
    []

/-- `policy_checks`: template checks of the active, non-enforced policies,
collected in agent/site/client/default order. -/
def policyChecksOf (policies : AgentPolicies) : List Check :=
  (policyList policies).foldl
    (fun acc p =>
      match p with
      | none => acc
      | some pol =>
          if pol.active = true ∧ pol.enforced = false then acc ++ pol.policychecks
          else acc)
    []

/-- The precedence-ordered candidate sequence the source loops over:
`enforced_checks + agent_checks + policy_checks`. -/
def candidateChecks (agent : CAgent) (policies : AgentPolicies) : List Check :=
  enforcedChecksOf policies ++ directChecks agent ++ policyChecksOf policies

/-- The mutable loop state of `cascade_policy_checks`: the seven
`added_*` dedup lists, the seven per-type result buckets, and the pks of the
agent checks flagged `overriden_by_policy` (the `check.save()` calls). -/
structure CascadeState where
  added_diskspace_checks : List String
  added_ping_checks : List String
  added_winsvc_checks : List String
  added_script_checks : List Nat
  added_eventlog_checks : List (String × Nat)
  added_cpuload_checks : List Check
  added_memory_checks : List Check
  diskspace_checks : List Check
  ping_checks : List Check
  winsvc_checks : List Check
  script_checks : List Check
  eventlog_checks : List Check
  cpuload_checks : List Check
  memory_checks : List Check
  overridden : List Nat
deriving DecidableEq

/-- The loop state at entry: every list empty. -/
def initCascadeState : CascadeState :=
  ⟨[], [], [], [], [], [], [], [], [], [], [], [], [], [], []⟩

/-- One iteration of the `for check in enforced_checks + agent_checks +
policy_checks` loop of `cascade_policy_checks`: the seven sequential `if`
blocks of the source, with the row mutations recorded in the state. -/
def processCheck (plat : String) (sup : String → Bool) (s : CascadeState)
    (check : Check) : CascadeState :=
  let s1 :=
    if check.check_type = CheckType.diskspace ∧ plat = "windows" then
      if check.disk ∉ s.added_diskspace_checks then
        { s with added_diskspace_checks := s.added_diskspace_checks ++ [check.disk],
                 diskspace_checks :=
                   if check.agent = none then s.diskspace_checks ++ [check]
                   else s.diskspace_checks }
      else if check.agent.isSome then
        { s with overridden := s.overridden ++ [check.pk] }
      else s
    else s
  let s2 :=
    if check.check_type = CheckType.ping then
      if check.ip ∉ s1.added_ping_checks then
        { s1 with added_ping_checks := s1.added_ping_checks ++ [check.ip],
                  ping_checks :=
                    if check.agent = none then s1.ping_checks ++ [check]
                    else s1.ping_checks }
      else if check.agent.isSome then
        { s1 with overridden := s1.overridden ++ [check.pk] }
      else s1
    else s1
  let s3 :=
    if check.check_type = CheckType.cpuload ∧ plat = "windows" then
      if s2.added_cpuload_checks = [] then
        { s2 with added_cpuload_checks := s2.added_cpuload_checks ++ [check],
                  cpuload_checks :=
                    if check.agent = none then s2.cpuload_checks ++ [check]
                    else s2.cpuload_checks }
      else if check.agent.isSome then
        { s2 with overridden := s2.overridden ++ [check.pk] }
      else s2
    else s2
  let s4 :=
    if check.check_type = CheckType.memory ∧ plat = "windows" then
      if s3.added_memory_checks = [] then
        { s3 with added_memory_checks := s3.added_memory_checks ++ [check],
                  memory_checks :=
                    if check.agent = none then s3.memory_checks ++ [check]
                    else s3.memory_checks }
      else if check.agent.isSome then
        { s3 with overridden := s3.overridden ++ [check.pk] }
      else s3
    else s3
  let s5 :=
    if check.check_type = CheckType.winsvc ∧ plat = "windows" then
      if check.svc_name ∉ s4.added_winsvc_checks then
        { s4 with added_winsvc_checks := s4.added_winsvc_checks ++ [check.svc_name],
                  winsvc_checks :=
                    if check.agent = none then s4.winsvc_checks ++ [check]
                    else s4.winsvc_checks }
      else if check.agent.isSome then
        { s4 with overridden := s4.overridden ++ [check.pk] }
      else s4
    else s4
  let s6 :=
    if check.check_type = CheckType.script ∧ sup check.script.shell = true then
      if check.script.id ∉ s5.added_script_checks then
        { s5 with added_script_checks := s5.added_script_checks ++ [check.script.id],
                  script_checks :=
                    if check.agent = none then s5.script_checks ++ [check]
                    else s5.script_checks }
      else if check.agent.isSome then
        { s5 with overridden := s5.overridden ++ [check.pk] }
      else s5
    else s5
  let s7 :=
    if check.check_type = CheckType.eventlog ∧ plat = "windows" then
      if (check.log_name, check.event_id) ∉ s6.added_eventlog_checks then
        { s6 with added_eventlog_checks :=
                    s6.added_eventlog_checks ++ [(check.log_name, check.event_id)],
                  eventlog_checks :=
                    if check.agent = none then s6.eventlog_checks ++ [check]
                    else s6.eventlog_checks }
      else if check.agent.isSome then
        { s6 with overridden := s6.overridden ++ [check.pk] }
      else s6
    else s6
  s7

/-- The loop state after `cascade_policy_checks` has processed every
candidate. -/
def checkFold (agent : CAgent) (policies : AgentPolicies) : CascadeState :=
  (candidateChecks agent policies).foldl
    (processCheck agent.plat agent.is_supported_script) initCascadeState

/-- `final_list`: the seven result buckets concatenated in the source's
fixed order. -/
def finalCheckList (agent : CAgent) (policies : AgentPolicies) : List Check :=
  let s := checkFold agent policies
  s.diskspace_checks ++ s.ping_checks ++ s.cpuload_checks ++ s.memory_checks ++
    s.winsvc_checks ++ s.script_checks ++ s.eventlog_checks

/-- The `parent_check` values selected by the stale-check delete:
parents of currently managed checks that are not among `final_list` pks. -/
def staleCheckParents (agent : CAgent) (policies : AgentPolicies) :
    List (Option Nat) :=
  (checkParentPks agent).filter
    (fun ppk =>
      decide (ppk ∉ (finalCheckList agent policies).map (fun c => some c.pk)))

/-- The contents of `agent.agentchecks` after `cascade_policy_checks` ran:
the stale managed checks are deleted and the flagged direct checks carry
`overriden_by_policy = True`. -/
def newAgentChecks (agent : CAgent) (policies : AgentPolicies) : List Check :=
  (agent.agentchecks.filter
      (fun c =>
        decide (¬(c.managed_by_policy = true ∧
          c.parent_check ∈ staleCheckParents agent policies)))).map
    (fun c =>
      if c.managed_by_policy = false ∧ c.pk ∈ (checkFold agent policies).overridden
      then { c with overriden_by_policy := true }
      else c)

/-- The full effect of `Policy.cascade_policy_checks`: its return value and
the new state of the agent's check table. -/
structure CascadeChecksOut where
  returned : List Check
  new_agentchecks : List Check
  overridden : List Nat

/-- `Policy.cascade_policy_checks(agent)` with the policy stack supplied as
an input (the source obtains it through `agent.get_agent_policies()`). -/
def cascade_policy_checks (agent : CAgent) (policies : AgentPolicies) :
    CascadeChecksOut :=
  { returned :=
      (finalCheckList agent policies).filter
        (fun c => decide (some c.pk ∉ checkParentPks agent)),
    new_agentchecks := newAgentChecks agent policies,
    overridden := (checkFold agent policies).overridden }

/-- `agent_tasks_parent_pks`: the `parent_task` values of the agent's
currently managed tasks. -/
def taskParentPks (agent : CAgent) : List (Option Nat) :=
  (agent.autotasks.filter (fun t => t.managed_by_policy = true)).map
    (fun t => t.parent_task)

/-- The `tasks` accumulation loop of `cascade_policy_tasks`: each active
policy's tasks appended in agent/site/client/default order, skipping a task
whose pk was already collected. -/
def collectedTasks (policies : AgentPolicies) : List AutoTask :=
  (policyList policies).foldl
    (fun acc p =>
      match p with
      | none => acc
      | some pol =>
          if pol.active = true then
            pol.autotasks.foldl
              (fun acc2 t =>
                if t.pk ∈ acc2.map (fun t2 => t2.pk) then acc2 else acc2 ++ [t])
              acc
          else acc)
    []

/-- The collected tasks after the platform-compatibility filter
(`agent.is_supported_script(task.script.shell)`). -/
def acceptedTasks (agent : CAgent) (policies : AgentPolicies) : List AutoTask :=
  (collectedTasks policies).filter
    (fun t => agent.is_supported_script t.script.shell)

/-- The `parent_task` values selected by the stale-task pass: parents of
currently managed tasks that are not among the accepted tasks' pks. -/
def staleTaskParents (agent : CAgent) (policies : AgentPolicies) :
    List (Option Nat) :=
  (taskParentPks agent).filter
    (fun ppk =>
      decide (ppk ∉ (acceptedTasks agent policies).map (fun t => some t.pk)))

/-- The agent's task table after the stale-task pass: a selected task is
deleted if `sync_status == "initial"` and otherwise moved to
`"pendingdeletion"`. -/
def tasksAfterStale (agent : CAgent) (policies : AgentPolicies) : List AutoTask :=
  agent.autotasks.filterMap
    (fun t =>
      if t.parent_task ∈ staleTaskParents agent policies then
        if t.sync_status = "initial" then none
        else some { t with sync_status := "pendingdeletion" }
      else some t)

/-- The agent's task table after the revival pass: every
`"pendingdeletion"` task whose parent is among the accepted tasks' pks is
updated to `"notsynced"`. -/
def newAutotasks (agent : CAgent) (policies : AgentPolicies) : List AutoTask :=
  (tasksAfterStale agent policies).map
    (fun t =>
      if t.sync_status = "pendingdeletion" ∧
          t.parent_task ∈ (acceptedTasks agent policies).map (fun t2 => some t2.pk)
      then { t with sync_status := "notsynced" }
      else t)

/-- The full effect of `Policy.cascade_policy_tasks`: its return value and
the new state of the agent's task table. -/
structure CascadeTasksOut where
  returned : List AutoTask
  new_autotasks : List AutoTask

/-- `Policy.cascade_policy_tasks(agent)` with the policy stack supplied as
an input. -/
def cascade_policy_tasks (agent : CAgent) (policies : AgentPolicies) :
    CascadeTasksOut :=
  { returned :=
      (acceptedTasks agent policies).filter
        (fun t => decide (some t.pk ∉ taskParentPks agent)),
    new_autotasks := newAutotasks agent policies }

/-- Modelled from the spec: `Check.create_policy_check(agent)` is not under
`src/` (spec §6 `CreatePolicyCheck`, §4.4): it instantiates a concrete
managed check on the agent from a template, linking `parent_check` to the
template and starting in the never-synced `"initial"` state.  `newpk` is the
fresh primary key the database assigns. -/
def create_policy_check (newpk : Nat) (agentpk : Nat) (template : Check) : Check :=
  { template with
      pk := newpk, agent := some agentpk, managed_by_policy := true,
      parent_check := some template.pk, overriden_by_policy := false,
      sync_status := "initial" }

/-- Modelled from the spec: `Task.create_policy_task(agent)` is not under
`src/` (spec §6 `CreatePolicyTask`, §4.4): it instantiates a concrete
managed task on the agent from a template, linking `parent_task` to the
template and starting in the never-synced `"initial"` state. -/
def create_policy_task (newpk : Nat) (template : AutoTask) : AutoTask :=
  { template with
      pk := newpk, managed_by_policy := true,
      parent_task := some template.pk, sync_status := "initial" }

/-- Sequential materialization of a list of genuinely-new check templates,
the database assigning consecutive fresh pks starting at `fresh`. -/
def materializeChecks (agentpk : Nat) : Nat → List Check → List Check
  | _, [] => []
  | fresh, c :: rest =>
      create_policy_check fresh agentpk c :: materializeChecks agentpk (fresh + 1) rest

/-- Sequential materialization of a list of genuinely-new task templates. -/
def materializeTasks : Nat → List AutoTask → List AutoTask
  | _, [] => []
  | fresh, t :: rest => create_policy_task fresh t :: materializeTasks (fresh + 1) rest

/-- `Policy.generate_policy_checks(agent)`: run the cascade, then
materialize every genuinely-new template via `create_policy_check`.
`fresh` is the first primary key the database hands out. -/
def generate_policy_checks (fresh : Nat) (agent : CAgent)
    (policies : AgentPolicies) : CAgent :=
  let out := cascade_policy_checks agent policies
  { agent with
      agentchecks := out.new_agentchecks ++ materializeChecks agent.pk fresh out.returned }

/-- `Policy.generate_policy_tasks(agent)`: run the cascade, then materialize
every genuinely-new template via `create_policy_task`. -/
def generate_policy_tasks (fresh : Nat) (agent : CAgent)
    (policies : AgentPolicies) : CAgent :=
  let out := cascade_policy_tasks agent policies
  { agent with
      autotasks := out.new_autotasks ++ materializeTasks fresh out.returned }

/-! ### Scope resolution (`Policy.get_related`) -/

/-- A row of the `sites` table as read by `get_related`: pk, owning client
pk, and the inheritance-blocking flag. -/
structure SiteRec where
  pk : Nat
  client : Nat
  block_policy_inheritance : Bool
deriving DecidableEq

/-- A row of the `agents` table as read by `get_related`; `policy` is the
pk of the policy directly assigned to this agent (the reverse relation
behind `policy.agents`). -/
structure AgentRec where
  pk : Nat
  site : SiteRec
  monitoring_type : String
  block_policy_inheritance : Bool
  policy : Option Nat
deriving DecidableEq

/-- A policy as read by `get_related`: its direct client/site assignments
per monitoring type and its three exclusion sets (stored by pk). -/
structure PolicyRec where
  pk : Nat
  server_clients : List Nat
  workstation_clients : List Nat
  server_sites : List SiteRec
  workstation_sites : List SiteRec
  excluded_agents : List Nat
  excluded_sites : List Nat
  excluded_clients : List Nat

/-- The agent table (`Agent.objects`). -/
structure World where
  agents : List AgentRec

/-- `getattr(self, f"{mon_type}_clients")`. -/
def monClients (p : PolicyRec) (mt : String) : List Nat :=
  if mt = "server" then p.server_clients
  else if mt = "workstation" then p.workstation_clients
  else []

/-- `getattr(self, f"{mon_type}_sites")`. -/
def monSites (p : PolicyRec) (mt : String) : List SiteRec :=
  if mt = "server" then p.server_sites
  else if mt = "workstation" then p.workstation_sites
  else []

/-- `explicit_agents`: agents directly assigned the policy with matching
monitoring type, minus the excluded agents, minus agents of excluded sites,
minus agents of excluded clients. -/
def explicitAgents (w : World) (p : PolicyRec) (mt : String) : List AgentRec :=
  w.agents.filter
    (fun a =>
      decide (a.policy = some p.pk ∧ a.monitoring_type = mt ∧
        a.pk ∉ p.excluded_agents ∧ a.site.pk ∉ p.excluded_sites ∧
        a.site.client ∉ p.excluded_clients))

/-- `explicit_clients`: clients assigned the policy for this monitoring
type, minus the excluded clients. -/
def explicitClients (p : PolicyRec) (mt : String) : List Nat :=
  (monClients p mt).filter (fun c => decide (c ∉ p.excluded_clients))

/-- `explicit_sites`: sites assigned the policy for this monitoring type,
minus the excluded sites. -/
def explicitSites (p : PolicyRec) (mt : String) : List SiteRec :=
  (monSites p mt).filter (fun s => decide (s.pk ∉ p.excluded_sites))

/-- The site list of the first `filtered_agents_pks` union: explicit sites
whose client neither inherits the policy itself nor is excluded. -/
def sitePathSites (p : PolicyRec) (mt : String) : List SiteRec :=
  (explicitSites p mt).filter
    (fun s =>
      decide (s.client ∉ explicitClients p mt ∧ s.client ∉ p.excluded_clients))

/-- Agents inheriting the policy through their site. -/
def viaSiteAgents (w : World) (p : PolicyRec) (mt : String) : List AgentRec :=
  w.agents.filter
    (fun a =>
      decide (a.block_policy_inheritance = false ∧
        a.site ∈ sitePathSites p mt ∧ a.monitoring_type = mt))

/-- Agents inheriting the policy through their site's client. -/
def viaClientAgents (w : World) (p : PolicyRec) (mt : String) : List AgentRec :=
  w.agents.filter
    (fun a =>
      decide (a.block_policy_inheritance = false ∧
        a.site.block_policy_inheritance = false ∧
        a.site.client ∈ explicitClients p mt ∧ a.monitoring_type = mt))

/-- `Policy.get_related(mon_type)`: the final
`Agent.objects.filter(Q(pk__in=filtered_agents_pks) | Q(pk__in=explicit_agents))`. -/
def get_related (w : World) (p : PolicyRec) (mt : String) : List AgentRec :=
  w.agents.filter
    (fun a =>
      decide (a.pk ∈ (viaSiteAgents w p mt).map (fun b => b.pk) ++
          (viaClientAgents w p mt).map (fun b => b.pk) ∨
        a.pk ∈ (explicitAgents w p mt).map (fun b => b.pk)))

/-! ### `Policy.save` side effects -/

/-- The policy fields `Policy.save` compares against the stored row. -/
structure PolicyFields where
  active : Bool
  enforced : Bool
  alert_template : Option Nat
deriving DecidableEq

/-- The two deferred side effects `Policy.save` can enqueue. -/
inductive SaveEffect
  | generateAgentChecks
  | cacheAlertTemplate
deriving DecidableEq

/-- The side effects of `Policy.save`: `old_policy` is looked up only when
the instance already has a pk; `generate_agent_checks_task` is enqueued when
`active` or `enforced` changed, `cache_agents_alert_template` when
`alert_template` changed. -/
def save_effects (db : Nat → Option PolicyFields) (pk : Option Nat)
    (p : PolicyFields) : List SaveEffect :=
  let old : Option PolicyFields :=
    match pk with
    | none => none
    | some k => db k
  match old with
  | none => []
  | some o =>
      (if o.active ≠ p.active ∨ o.enforced ≠ p.enforced
       then [SaveEffect.generateAgentChecks] else []) ++
      (if o.alert_template ≠ p.alert_template
       then [SaveEffect.cacheAlertTemplate] else [])

/-! ### Specification-side helpers for stating the claims -/

/-- The per-type deduplication identity of a check (spec §4.2's table). -/
inductive CheckKey
  | disk (d : String)
  | pingip (ip : String)
  | cpu
  | mem
  | svc (n : String)
  | scr (i : Nat)
  | evt (l : String) (e : Nat)
deriving DecidableEq

/-- The deduplication key of a check on a given agent, `none` when the
candidate is filtered out by platform or script compatibility. -/
def checkKey (plat : String) (sup : String → Bool) (c : Check) :
    Option CheckKey :=
  match c.check_type with
  | CheckType.diskspace =>
      if plat = "windows" then some (CheckKey.disk c.disk) else none
  | CheckType.ping => some (CheckKey.pingip c.ip)
  | CheckType.cpuload => if plat = "windows" then some CheckKey.cpu else none
  | CheckType.memory => if plat = "windows" then some CheckKey.mem else none
  | CheckType.winsvc =>
      if plat = "windows" then some (CheckKey.svc c.svc_name) else none
  | CheckType.script =>
      if sup c.script.shell = true then some (CheckKey.scr c.script.id) else none
  | CheckType.eventlog =>
      if plat = "windows" then some (CheckKey.evt c.log_name c.event_id) else none

/-- The check type a key belongs to. -/
def keyType : CheckKey → CheckType
  | CheckKey.disk _ => CheckType.diskspace
  | CheckKey.pingip _ => CheckType.ping
  | CheckKey.cpu => CheckType.cpuload
  | CheckKey.mem => CheckType.memory
  | CheckKey.svc _ => CheckType.winsvc
  | CheckKey.scr _ => CheckType.script
  | CheckKey.evt _ _ => CheckType.eventlog

/-- Whether the loop state has already consumed a key. -/
def stateSeen (s : CascadeState) : CheckKey → Bool
  | CheckKey.disk d => decide (d ∈ s.added_diskspace_checks)
  | CheckKey.pingip ip => decide (ip ∈ s.added_ping_checks)
  | CheckKey.cpu => decide (s.added_cpuload_checks ≠ [])
  | CheckKey.mem => decide (s.added_memory_checks ≠ [])
  | CheckKey.svc n => decide (n ∈ s.added_winsvc_checks)
  | CheckKey.scr i => decide (i ∈ s.added_script_checks)
  | CheckKey.evt l e => decide ((l, e) ∈ s.added_eventlog_checks)

/-- Consuming a fresh key: record it in its `added_*` list and append the
check to its type bucket when it is a template. -/
def recordKey (s : CascadeState) (check : Check) : CheckKey → CascadeState
  | CheckKey.disk d =>
      { s with added_diskspace_checks := s.added_diskspace_checks ++ [d],
               diskspace_checks :=
                 if check.agent = none then s.diskspace_checks ++ [check]
                 else s.diskspace_checks }
  | CheckKey.pingip ip =>
      { s with added_ping_checks := s.added_ping_checks ++ [ip],
               ping_checks :=
                 if check.agent = none then s.ping_checks ++ [check]
                 else s.ping_checks }
  | CheckKey.cpu =>
      { s with added_cpuload_checks := s.added_cpuload_checks ++ [check],
               cpuload_checks :=
                 if check.agent = none then s.cpuload_checks ++ [check]
                 else s.cpuload_checks }
  | CheckKey.mem =>
      { s with added_memory_checks := s.added_memory_checks ++ [check],
               memory_checks :=
                 if check.agent = none then s.memory_checks ++ [check]
                 else s.memory_checks }
  | CheckKey.svc n =>
      { s with added_winsvc_checks := s.added_winsvc_checks ++ [n],
               winsvc_checks :=
                 if check.agent = none then s.winsvc_checks ++ [check]
                 else s.winsvc_checks }
  | CheckKey.scr i =>
      { s with added_script_checks := s.added_script_checks ++ [i],
               script_checks :=
                 if check.agent = none then s.script_checks ++ [check]
                 else s.script_checks }
  | CheckKey.evt l e =>
      { s with added_eventlog_checks := s.added_eventlog_checks ++ [(l, e)],
               eventlog_checks :=
                 if check.agent = none then s.eventlog_checks ++ [check]
                 else s.eventlog_checks }

/-- One loop iteration, reformulated through the key of the candidate. -/
def addToState (s : CascadeState) (check : Check) : Option CheckKey → CascadeState
  | none => s
  | some k =>
      if stateSeen s k then
        if check.agent.isSome then
          { s with overridden := s.overridden ++ [check.pk] }
        else s
      else recordKey s check k

/-- First-occurrence-wins acceptance (spec §4.2 step 5): scanning the
candidates in precedence order, a candidate whose key is fresh claims the
key and is accepted when it is a template. -/
def acceptedFrom (plat : String) (sup : String → Bool) :
    List CheckKey → List Check → List Check
  | _, [] => []
  | seen, c :: rest =>
      match checkKey plat sup c with
      | none => acceptedFrom plat sup seen rest
      | some k =>
          if k ∈ seen then acceptedFrom plat sup seen rest
          else if c.agent = none then c :: acceptedFrom plat sup (k :: seen) rest
          else acceptedFrom plat sup (k :: seen) rest

/-- First-occurrence-wins override marking: an agent-owned candidate whose
key was already claimed is flagged. -/
def overriddenFrom (plat : String) (sup : String → Bool) :
    List CheckKey → List Check → List Nat
  | _, [] => []
  | seen, c :: rest =>
      match checkKey plat sup c with
      | none => overriddenFrom plat sup seen rest
      | some k =>
          if k ∈ seen then
            if c.agent.isSome then c.pk :: overriddenFrom plat sup seen rest
            else overriddenFrom plat sup seen rest
          else overriddenFrom plat sup (k :: seen) rest

/-- The bucket of a check type inside the loop state. -/
def stateBucket (s : CascadeState) : CheckType → List Check
  | CheckType.diskspace => s.diskspace_checks
  | CheckType.ping => s.ping_checks
  | CheckType.cpuload => s.cpuload_checks
  | CheckType.memory => s.memory_checks
  | CheckType.winsvc => s.winsvc_checks
  | CheckType.script => s.script_checks
  | CheckType.eventlog => s.eventlog_checks

/-- The sublist of checks of one type. -/
def bucketOf (ct : CheckType) (l : List Check) : List Check :=
  l.filter (fun c => decide (c.check_type = ct))

/-- The first-occurrence-wins acceptance sequence of an agent's candidate
checks (the specification-side reading of the cascade loop). -/
def acceptedChecks (agent : CAgent) (policies : AgentPolicies) : List Check :=
  acceptedFrom agent.plat agent.is_supported_script []
    (candidateChecks agent policies)

/-- The first-occurrence-wins override sequence of an agent's candidate
checks. -/
def overriddenChecks (agent : CAgent) (policies : AgentPolicies) : List Nat :=
  overriddenFrom agent.plat agent.is_supported_script []
    (candidateChecks agent policies)

/-! ### Concrete fixtures used by counterexamples and witnesses -/

/-- A script-compatibility predicate accepting everything. -/
def supAll : String → Bool := fun _ => true

/-- A template diskspace check for drive `C:` with pk 5. -/
def tmplDiskC : Check :=
  ⟨5, CheckType.diskspace, "C:", "", "", ⟨0, ""⟩, "", 0, none, false, none, false, "initial"⟩

/-- A second template diskspace check for drive `C:` with pk 6 (as
contributed by a second policy). -/
def tmplDiskC2 : Check :=
  ⟨6, CheckType.diskspace, "C:", "", "", ⟨0, ""⟩, "", 0, none, false, none, false, "initial"⟩

/-- A template ping check for host `10.0.0.1` with pk 11. -/
def tmplPing : Check :=
  ⟨11, CheckType.ping, "", "10.0.0.1", "", ⟨0, ""⟩, "", 0, none, false, none, false, "initial"⟩

/-- A direct (agent-owned) ping check for the same host `10.0.0.1`. -/
def directPing : Check :=
  ⟨21, CheckType.ping, "", "10.0.0.1", "", ⟨0, ""⟩, "", 0, some 1, false, none, false, "synced"⟩

/-- A managed agent check generated from template pk 99 that has already
been synced. -/
def managedSynced : Check :=
  ⟨31, CheckType.ping, "", "8.8.8.8", "", ⟨0, ""⟩, "", 0, some 1, true, some 99, false, "notsynced"⟩

/-- A managed agent check generated from template pk 5 sitting in
`pendingdeletion`. -/
def managedPendingDel : Check :=
  ⟨32, CheckType.diskspace, "C:", "", "", ⟨0, ""⟩, "", 0, some 1, true, some 5, false, "pendingdeletion"⟩

/-- An enforced active policy contributing the pk-5 diskspace template and
the ping template. -/
def polEnforced : PolicyT := ⟨true, true, [tmplDiskC, tmplPing], []⟩

/-- A non-enforced active policy contributing the pk-6 diskspace template. -/
def polPlain : PolicyT := ⟨true, false, [tmplDiskC2], []⟩

/-- A policy stack with the enforced policy at agent level and the plain
policy at site level. -/
def stackEnforcedPlain : AgentPolicies := ⟨some polEnforced, some polPlain, none, none⟩

/-- A policy stack whose only member is the plain diskspace policy. -/
def stackPlainOnly : AgentPolicies := ⟨some polPlain, none, none, none⟩

/-- A policy stack whose only member is the enforced policy. -/
def stackEnforcedOnly : AgentPolicies := ⟨some polEnforced, none, none, none⟩

/-- The empty policy stack. -/
def stackEmpty : AgentPolicies := ⟨none, none, none, none⟩

/-- A windows agent with one direct ping check and one synced managed
check. -/
def agWin : CAgent := ⟨1, "windows", supAll, [directPing, managedSynced], []⟩

/-- A windows agent whose only check is a managed check stuck in
`pendingdeletion` under template pk 5. -/
def agWinPending : CAgent := ⟨1, "windows", supAll, [managedPendingDel], []⟩

/-- A site record for the scope fixtures. -/
def siteA : SiteRec := ⟨10, 20, false⟩

/-- A site record with `block_policy_inheritance = true`. -/
def siteBlocked : SiteRec := ⟨11, 20, true⟩

/-- A server agent at `siteA` not assigned any policy directly. -/
def agentFree : AgentRec := ⟨1, siteA, "server", false, none⟩

/-- A server agent at `siteBlocked` with `block_policy_inheritance = false`. -/
def agentAtBlockedSite : AgentRec := ⟨2, siteBlocked, "server", false, none⟩

/-- A server agent that blocks inheritance and is directly assigned policy
pk 5. -/
def agentBlockedAssigned : AgentRec := ⟨3, siteA, "server", true, some 5⟩

/-- The agent table for the scope fixtures. -/
def worldA : World := ⟨[agentFree, agentAtBlockedSite, agentBlockedAssigned]⟩

/-- A policy (pk 5) whose server sites are `siteA` and `siteBlocked` and
which excludes agent pk 1. -/
def polScope : PolicyRec := ⟨5, [], [], [siteA, siteBlocked], [], [1], [], []⟩

/-- A policy (pk 5) assigning `siteA` for servers while excluding client 20. -/
def polScopeClientExcl : PolicyRec := ⟨5, [], [], [siteA], [], [1], [], [20]⟩

/-- A template task (pk 41) running a python script. -/
def taskTmpl : AutoTask := ⟨41, ⟨7, "python"⟩, false, none, "initial"⟩

/-- A non-enforced active policy contributing the ping template and the
template task. -/
def polMix : PolicyT := ⟨true, false, [tmplPing], [taskTmpl]⟩

/-- A policy stack whose only member is `polMix`. -/
def stackMix : AgentPolicies := ⟨some polMix, none, none, none⟩

/-- A linux agent with no checks or tasks of its own. -/
def agLinux : CAgent := ⟨2, "linux", supAll, [], []⟩

/-- A managed task generated from template pk 90 that has already been
synced. -/
def managedTaskSynced : AutoTask := ⟨51, ⟨7, "python"⟩, true, some 90, "notsynced"⟩

/-- A windows agent holding the synced managed check and the synced managed
task. -/
def agWithTask : CAgent := ⟨1, "windows", supAll, [managedSynced], [managedTaskSynced]⟩

/-- A managed task generated from `taskTmpl` sitting in `pendingdeletion`. -/
def managedTaskPending : AutoTask := ⟨52, ⟨7, "python"⟩, true, some 41, "pendingdeletion"⟩

/-- A windows agent whose only task is `managedTaskPending`. -/
def agTaskPending : CAgent := ⟨1, "windows", supAll, [], [managedTaskPending]⟩

/-- A one-row policy table: pk 1 holds an inactive, non-enforced policy. -/
def dbOne : Nat → Option PolicyFields :=
  fun k => if k = 1 then some ⟨false, false, none⟩ else none

/-- New field values that flip `active` on. -/
def pfNew : PolicyFields := ⟨true, false, none⟩

/-! ### Lemmas: the seven-bucket loop implements first-occurrence-wins -/

theorem processCheck_eq (plat : String) (sup : String → Bool) (s : CascadeState)
    (c : Check) :
    processCheck plat sup s c = addToState s c (checkKey plat sup c) := by
  cases hct : c.check_type <;>
    by_cases hp : plat = "windows" <;>
      by_cases hsup : sup c.script.shell = true <;>
        simp [processCheck, checkKey, addToState, recordKey, stateSeen, hct, hp,
          hsup]

theorem keyType_checkKey (plat : String) (sup : String → Bool) (c : Check)
    (k : CheckKey) (h : checkKey plat sup c = some k) :
    keyType k = c.check_type := by
  cases hct : c.check_type <;> simp only [checkKey, hct] at h <;>
    (try split at h) <;> (try cases h) <;> simp_all [keyType]

theorem stateSeen_setOverridden (s : CascadeState) (x : List Nat) (k : CheckKey) :
    stateSeen { s with overridden := x } k = stateSeen s k := by
  cases k <;> rfl

theorem stateBucket_setOverridden (s : CascadeState) (x : List Nat)
    (ct : CheckType) :
    stateBucket { s with overridden := x } ct = stateBucket s ct := by
  cases ct <;> rfl

theorem overridden_recordKey (s : CascadeState) (c : Check) (k : CheckKey) :
    (recordKey s c k).overridden = s.overridden := by
  cases k <;> rfl

theorem stateSeen_recordKey (s : CascadeState) (c : Check) (k k' : CheckKey) :
    stateSeen (recordKey s c k) k' = true ↔
      k' = k ∨ stateSeen s k' = true := by
  cases k <;> cases k' <;> simp [recordKey, stateSeen] <;> tauto

theorem stateBucket_recordKey (s : CascadeState) (c : Check) (k : CheckKey)
    (ct : CheckType) :
    stateBucket (recordKey s c k) ct =
      stateBucket s ct ++
        (if keyType k = ct ∧ c.agent = none then [c] else []) := by
  cases k <;> cases ct <;>
    simp [recordKey, stateBucket, keyType] <;> split_ifs <;> simp_all

/-- Correspondence between the `added_*` lists of a loop state and an
abstract list of already-claimed keys. -/
def Corr (s : CascadeState) (seen : List CheckKey) : Prop :=
  ∀ k, stateSeen s k = true ↔ k ∈ seen

theorem corr_init : Corr initCascadeState [] := by
  intro k; cases k <;> simp [initCascadeState, stateSeen]

theorem foldChar (plat : String) (sup : String → Bool) :
    ∀ (L : List Check) (s : CascadeState) (K : List CheckKey), Corr s K →
      (∀ ct, stateBucket (L.foldl (processCheck plat sup) s) ct =
          stateBucket s ct ++ bucketOf ct (acceptedFrom plat sup K L)) ∧
      (L.foldl (processCheck plat sup) s).overridden =
        s.overridden ++ overriddenFrom plat sup K L := by
  intro L
  induction L with
  | nil =>
      intro s K _
      simp [acceptedFrom, overriddenFrom, bucketOf]
  | cons c rest ih =>
      intro s K hc
      rw [List.foldl_cons, processCheck_eq]
      cases hk : checkKey plat sup c with
      | none =>
          have := ih s K hc
          simpa [acceptedFrom, overriddenFrom, hk, addToState] using this
      | some k =>
          by_cases hseen : k ∈ K
          · have hs : stateSeen s k = true := (hc k).mpr hseen
            by_cases ha : c.agent.isSome
            · have hc2 : Corr { s with overridden := s.overridden ++ [c.pk] } K := by
                intro k2; rw [stateSeen_setOverridden]; exact hc k2
              obtain ⟨hb, ho⟩ := ih _ K hc2
              simp only [addToState]
              rw [if_pos hs, if_pos ha]
              constructor
              · intro ct
                rw [hb ct, stateBucket_setOverridden]
                simp [acceptedFrom, hk, hseen]
              · rw [ho]
                simp [overriddenFrom, hk, hseen, ha, List.append_assoc]
            · obtain ⟨hb, ho⟩ := ih s K hc
              simp only [addToState]
              rw [if_pos hs, if_neg ha]
              constructor
              · intro ct
                rw [hb ct]
                simp [acceptedFrom, hk, hseen]
              · rw [ho]
                simp [overriddenFrom, hk, hseen, ha]
          · have hs : ¬ stateSeen s k = true := fun h => hseen ((hc k).mp h)
            have hc2 : Corr (recordKey s c k) (k :: K) := by
              intro k2
              rw [stateSeen_recordKey]
              simp only [List.mem_cons]
              exact or_congr Iff.rfl (hc k2)
            obtain ⟨hb, ho⟩ := ih (recordKey s c k) (k :: K) hc2
            simp only [addToState]
            rw [if_neg hs]
            constructor
            · intro ct
              rw [hb ct, stateBucket_recordKey]
              have hkt : keyType k = c.check_type := keyType_checkKey plat sup c k hk
              by_cases ha : c.agent = none
              · by_cases hctc : c.check_type = ct
                · simp [acceptedFrom, hk, hseen, ha, bucketOf, List.filter_cons,
                    hctc, hkt, List.append_assoc]
                · have hkt2 : ¬ keyType k = ct := by rw [hkt]; exact hctc
                  simp [acceptedFrom, hk, hseen, ha, bucketOf, List.filter_cons,
                    hctc, hkt2]
              · have : ¬ (keyType k = ct ∧ c.agent = none) := by tauto
                simp [acceptedFrom, hk, hseen, ha, this]
            · rw [ho, overridden_recordKey]
              simp [overriddenFrom, hk, hseen]

theorem stateBucket_init (ct : CheckType) :
    stateBucket initCascadeState ct = [] := by
  cases ct <;> rfl

theorem checkFold_buckets (agent : CAgent) (policies : AgentPolicies)
    (ct : CheckType) :
    stateBucket (checkFold agent policies) ct =
      bucketOf ct (acceptedChecks agent policies) := by
  have h := (foldChar agent.plat agent.is_supported_script
    (candidateChecks agent policies) initCascadeState [] corr_init).1 ct
  rw [checkFold, acceptedChecks]
  rw [h, stateBucket_init, List.nil_append]

theorem checkFold_overridden (agent : CAgent) (policies : AgentPolicies) :
    (checkFold agent policies).overridden = overriddenChecks agent policies := by
  have h := (foldChar agent.plat agent.is_supported_script
    (candidateChecks agent policies) initCascadeState [] corr_init).2
  rw [checkFold, overriddenChecks]
  rw [h]
  rfl

theorem finalCheckList_eq (agent : CAgent) (policies : AgentPolicies) :
    finalCheckList agent policies =
      bucketOf CheckType.diskspace (acceptedChecks agent policies) ++
      bucketOf CheckType.ping (acceptedChecks agent policies) ++
      bucketOf CheckType.cpuload (acceptedChecks agent policies) ++
      bucketOf CheckType.memory (acceptedChecks agent policies) ++
      bucketOf CheckType.winsvc (acceptedChecks agent policies) ++
      bucketOf CheckType.script (acceptedChecks agent policies) ++
      bucketOf CheckType.eventlog (acceptedChecks agent policies) := by
  have h1 := checkFold_buckets agent policies CheckType.diskspace
  have h2 := checkFold_buckets agent policies CheckType.ping
  have h3 := checkFold_buckets agent policies CheckType.cpuload
  have h4 := checkFold_buckets agent policies CheckType.memory
  have h5 := checkFold_buckets agent policies CheckType.winsvc
  have h6 := checkFold_buckets agent policies CheckType.script
  have h7 := checkFold_buckets agent policies CheckType.eventlog
  simp only [stateBucket] at h1 h2 h3 h4 h5 h6 h7
  rw [finalCheckList]
  rw [h1, h2, h3, h4, h5, h6, h7]

theorem count_bucketOf (a : Check) (ct : CheckType) (l : List Check) :
    List.count a (bucketOf ct l) =
      if a.check_type = ct then List.count a l else 0 := by
  split_ifs with h
  · rw [bucketOf]
    exact List.count_filter (by simp [h])
  · rw [bucketOf, List.count_eq_zero]
    intro hmem
    rw [List.mem_filter] at hmem
    exact h (by simpa using hmem.2)

theorem typePartitionPerm (l : List Check) :
    List.Perm
      (bucketOf CheckType.diskspace l ++ bucketOf CheckType.ping l ++
        bucketOf CheckType.cpuload l ++ bucketOf CheckType.memory l ++
        bucketOf CheckType.winsvc l ++ bucketOf CheckType.script l ++
        bucketOf CheckType.eventlog l) l := by
  rw [List.perm_iff_count]
  intro a
  simp only [List.count_append, count_bucketOf]
  cases hct : a.check_type <;> simp [hct]

theorem finalCheckList_perm (agent : CAgent) (policies : AgentPolicies) :
    List.Perm (finalCheckList agent policies) (acceptedChecks agent policies) := by
  rw [finalCheckList_eq]
  exact typePartitionPerm _

theorem mem_finalCheckList (agent : CAgent) (policies : AgentPolicies)
    (c : Check) :
    c ∈ finalCheckList agent policies ↔ c ∈ acceptedChecks agent policies :=
  (finalCheckList_perm agent policies).mem_iff

theorem mem_acceptedFrom (plat : String) (sup : String → Bool) :
    ∀ (L : List Check) (K : List CheckKey) (c : Check),
      c ∈ acceptedFrom plat sup K L →
      c ∈ L ∧ c.agent = none ∧ ∃ k, checkKey plat sup c = some k ∧ k ∉ K := by
  intro L
  induction L with
  | nil => intro K c h; simp [acceptedFrom] at h
  | cons d rest ih =>
      intro K c h
      cases hk : checkKey plat sup d with
      | none =>
          simp only [acceptedFrom, hk] at h
          obtain ⟨h1, h2, k, hks, hkK⟩ := ih K c h
          exact ⟨List.mem_cons_of_mem _ h1, h2, k, hks, hkK⟩
      | some k =>
          by_cases hkK : k ∈ K
          · simp only [acceptedFrom, hk, if_pos hkK] at h
            obtain ⟨h1, h2, k2, hks, hk2K⟩ := ih K c h
            exact ⟨List.mem_cons_of_mem _ h1, h2, k2, hks, hk2K⟩
          · by_cases ha : d.agent = none
            · simp only [acceptedFrom, hk, if_neg hkK, if_pos ha,
                List.mem_cons] at h
              rcases h with rfl | h
              · exact ⟨List.mem_cons_self _ _, ha, k, hk, hkK⟩
              · obtain ⟨h1, h2, k2, hks, hk2K⟩ := ih (k :: K) c h
                exact ⟨List.mem_cons_of_mem _ h1, h2, k2, hks,
                  fun hm => hk2K (List.mem_cons_of_mem _ hm)⟩
            · simp only [acceptedFrom, hk, if_neg hkK, if_neg ha] at h
              obtain ⟨h1, h2, k2, hks, hk2K⟩ := ih (k :: K) c h
              exact ⟨List.mem_cons_of_mem _ h1, h2, k2, hks,
                fun hm => hk2K (List.mem_cons_of_mem _ hm)⟩

theorem acceptedFrom_keys (plat : String) (sup : String → Bool) :
    ∀ (L : List Check) (K : List CheckKey),
      ((acceptedFrom plat sup K L).map (checkKey plat sup)).Nodup ∧
      ∀ c ∈ acceptedFrom plat sup K L, ∀ k ∈ K, checkKey plat sup c ≠ some k := by
  intro L
  induction L with
  | nil => intro K; simp [acceptedFrom]
  | cons d rest ih =>
      intro K
      cases hk : checkKey plat sup d with
      | none => simpa only [acceptedFrom, hk] using ih K
      | some k =>
          by_cases hkK : k ∈ K
          · simpa only [acceptedFrom, hk, if_pos hkK] using ih K
          · obtain ⟨hnd, havoid⟩ := ih (k :: K)
            by_cases ha : d.agent = none
            · constructor
              · simp only [acceptedFrom, hk, if_neg hkK, if_pos ha, List.map_cons]
                rw [List.nodup_cons]
                refine ⟨?_, hnd⟩
                intro hmem
                rw [List.mem_map] at hmem
                obtain ⟨c, hc, hkey⟩ := hmem
                exact havoid c hc k (List.mem_cons_self _ _) hkey
              · intro c hc k2 hk2
                simp only [acceptedFrom, hk, if_neg hkK, if_pos ha,
                  List.mem_cons] at hc
                rcases hc with rfl | hc
                · rw [hk]
                  intro he
                  injection he with he
                  exact hkK (he ▸ hk2)
                · exact havoid c hc k2 (List.mem_cons_of_mem _ hk2)
            · constructor
              · simpa only [acceptedFrom, hk, if_neg hkK, if_neg ha] using hnd
              · intro c hc k2 hk2
                simp only [acceptedFrom, hk, if_neg hkK, if_neg ha] at hc
                exact havoid c hc k2 (List.mem_cons_of_mem _ hk2)

theorem bucketOf_append (ct : CheckType) (l1 l2 : List Check) :
    bucketOf ct (l1 ++ l2) = bucketOf ct l1 ++ bucketOf ct l2 :=
  List.filter_append _ _

theorem bucketOf_filter (ct : CheckType) (p : Check → Bool) (l : List Check) :
    bucketOf ct (l.filter p) = (bucketOf ct l).filter p := by
  rw [bucketOf, bucketOf, List.filter_filter, List.filter_filter]
  exact List.filter_congr (fun c _ => Bool.and_comm _ _)

theorem bucketOf_bucketOf (ct ct' : CheckType) (l : List Check) :
    bucketOf ct (bucketOf ct' l) = if ct = ct' then bucketOf ct' l else [] := by
  rw [bucketOf, bucketOf, List.filter_filter]
  split_ifs with h
  · subst h
    exact List.filter_congr (fun c _ => by simp)
  · rw [List.filter_eq_nil_iff]
    intro c _
    simp only [Bool.and_eq_true, decide_eq_true_eq, not_and]
    intro h1 h2
    exact h (h1 ▸ h2 ▸ rfl)

theorem mem_returned (agent : CAgent) (policies : AgentPolicies) (c : Check) :
    c ∈ (cascade_policy_checks agent policies).returned ↔
      c ∈ finalCheckList agent policies ∧ some c.pk ∉ checkParentPks agent := by
  show c ∈ (finalCheckList agent policies).filter _ ↔ _
  rw [List.mem_filter]
  simp

theorem returned_keys_nodup (agent : CAgent) (policies : AgentPolicies) :
    (((cascade_policy_checks agent policies).returned).map
      (checkKey agent.plat agent.is_supported_script)).Nodup := by
  have hacc := (acceptedFrom_keys agent.plat agent.is_supported_script
    (candidateChecks agent policies) []).1
  have hfin : ((finalCheckList agent policies).map
      (checkKey agent.plat agent.is_supported_script)).Nodup := by
    refine ((finalCheckList_perm agent policies).map _).nodup_iff.mpr ?_
    simpa [acceptedChecks] using hacc
  refine List.Nodup.sublist ?_ hfin
  exact (List.filter_sublist _).map _

/-- C4: the candidates of `cascade_policy_checks` are scanned in the exact
sequence `enforced_checks ++ agent_checks ++ policy_checks`; within that
sequence the first occurrence of each check-type identity key wins
(`acceptedFrom`/`overriddenFrom` are the straightforward first-occurrence
recursions over that sequence), and every later agent-owned duplicate is
flagged `overriden_by_policy = true` and kept in the agent's check table
rather than removed. -/
theorem cascade_precedence_first_occurrence (agent : CAgent)
    (policies : AgentPolicies) :
    candidateChecks agent policies =
        enforcedChecksOf policies ++ directChecks agent ++ policyChecksOf policies ∧
    (cascade_policy_checks agent policies).overridden =
        overriddenChecks agent policies ∧
    (∀ c, c ∈ finalCheckList agent policies ↔ c ∈ acceptedChecks agent policies) ∧
    (∀ c ∈ agent.agentchecks, c.managed_by_policy = false →
        c.pk ∈ overriddenChecks agent policies →
        { c with overriden_by_policy := true } ∈
          (cascade_policy_checks agent policies).new_agentchecks) := by
  refine ⟨rfl, checkFold_overridden agent policies,
    mem_finalCheckList agent policies, ?_⟩
  intro c hc hm hov
  show _ ∈ newAgentChecks agent policies
  rw [newAgentChecks, List.mem_map]
  refine ⟨c, ?_, ?_⟩
  · rw [List.mem_filter]
    refine ⟨hc, ?_⟩
    simp [hm]
  · have hcond : c.managed_by_policy = false ∧
        c.pk ∈ (checkFold agent policies).overridden :=
      ⟨hm, by rw [checkFold_overridden]; exact hov⟩
    rw [if_pos hcond]

/-- C6: the list returned by `cascade_policy_checks` is the concatenation of
its per-type sublists in the fixed order diskspace, ping, cpuload, memory,
winsvc, script, eventlog, and no two returned checks share a deduplication
key (`checkKey`: disk letter, host/ip, singleton cpuload, singleton memory,
service name, script id, (log name, event id) pair) — so at most one
accepted check per identity exists within each type. -/
theorem final_list_bucket_order_dedup (agent : CAgent)
    (policies : AgentPolicies) :
    (cascade_policy_checks agent policies).returned =
        bucketOf CheckType.diskspace (cascade_policy_checks agent policies).returned ++
        bucketOf CheckType.ping (cascade_policy_checks agent policies).returned ++
        bucketOf CheckType.cpuload (cascade_policy_checks agent policies).returned ++
        bucketOf CheckType.memory (cascade_policy_checks agent policies).returned ++
        bucketOf CheckType.winsvc (cascade_policy_checks agent policies).returned ++
        bucketOf CheckType.script (cascade_policy_checks agent policies).returned ++
        bucketOf CheckType.eventlog (cascade_policy_checks agent policies).returned ∧
    (((cascade_policy_checks agent policies).returned).map
        (checkKey agent.plat agent.is_supported_script)).Nodup := by
  constructor
  · have hret : (cascade_policy_checks agent policies).returned =
        (bucketOf CheckType.diskspace (acceptedChecks agent policies)).filter
          (fun c => decide (some c.pk ∉ checkParentPks agent)) ++
        (bucketOf CheckType.ping (acceptedChecks agent policies)).filter
          (fun c => decide (some c.pk ∉ checkParentPks agent)) ++
        (bucketOf CheckType.cpuload (acceptedChecks agent policies)).filter
          (fun c => decide (some c.pk ∉ checkParentPks agent)) ++
        (bucketOf CheckType.memory (acceptedChecks agent policies)).filter
          (fun c => decide (some c.pk ∉ checkParentPks agent)) ++
        (bucketOf CheckType.winsvc (acceptedChecks agent policies)).filter
          (fun c => decide (some c.pk ∉ checkParentPks agent)) ++
        (bucketOf CheckType.script (acceptedChecks agent policies)).filter
          (fun c => decide (some c.pk ∉ checkParentPks agent)) ++
        (bucketOf CheckType.eventlog (acceptedChecks agent policies)).filter
          (fun c => decide (some c.pk ∉ checkParentPks agent)) := by
      show (finalCheckList agent policies).filter _ = _
      rw [finalCheckList_eq]
      simp only [List.filter_append]
    have hb : ∀ ct, bucketOf ct ((cascade_policy_checks agent policies).returned) =
        (bucketOf ct (acceptedChecks agent policies)).filter
          (fun c => decide (some c.pk ∉ checkParentPks agent)) := by
      intro ct
      rw [hret]
      simp only [bucketOf_append, bucketOf_filter, bucketOf_bucketOf]
      cases ct <;> simp
    rw [hb CheckType.diskspace, hb CheckType.ping, hb CheckType.cpuload,
      hb CheckType.memory, hb CheckType.winsvc, hb CheckType.script,
      hb CheckType.eventlog, hret]
  · exact returned_keys_nodup agent policies

/-- C9: every check returned by `cascade_policy_checks` is a policy template
(null `agent` reference), no two returned checks of the same type share a
deduplication identity key, and no returned check's pk is among the parent
pks of the agent's existing managed checks. -/
theorem cascade_output_invariant (agent : CAgent) (policies : AgentPolicies) :
    (∀ c ∈ (cascade_policy_checks agent policies).returned,
        c.agent = none ∧ some c.pk ∉ checkParentPks agent) ∧
    List.Pairwise
      (fun c1 c2 => c1.check_type = c2.check_type →
        checkKey agent.plat agent.is_supported_script c1 ≠
          checkKey agent.plat agent.is_supported_script c2)
      (cascade_policy_checks agent policies).returned := by
  constructor
  · intro c hc
    rw [mem_returned] at hc
    obtain ⟨hfin, hpk⟩ := hc
    rw [mem_finalCheckList, acceptedChecks] at hfin
    obtain ⟨-, hagent, -⟩ :=
      mem_acceptedFrom agent.plat agent.is_supported_script _ _ c hfin
    exact ⟨hagent, hpk⟩
  · have h := returned_keys_nodup agent policies
    have h2 : List.Pairwise
        (fun c1 c2 => checkKey agent.plat agent.is_supported_script c1 ≠
          checkKey agent.plat agent.is_supported_script c2)
        (cascade_policy_checks agent policies).returned :=
      List.pairwise_map.mp h
    exact h2.imp (fun hne => fun _ => hne)

/-- C7: on a non-windows agent no diskspace/cpuload/memory/winsvc/eventlog
template is ever accepted into the resolved check list, and on any platform
a script check or task whose script shell is not supported never enters the
resolved list. -/
theorem platform_filtering (agent : CAgent) (policies : AgentPolicies) :
    (agent.plat ≠ "windows" → ∀ c ∈ finalCheckList agent policies,
        c.check_type ≠ CheckType.diskspace ∧ c.check_type ≠ CheckType.cpuload ∧
        c.check_type ≠ CheckType.memory ∧ c.check_type ≠ CheckType.winsvc ∧
        c.check_type ≠ CheckType.eventlog) ∧
    (∀ c ∈ finalCheckList agent policies, c.check_type = CheckType.script →
        agent.is_supported_script c.script.shell = true) ∧
    (∀ t ∈ acceptedTasks agent policies,
        agent.is_supported_script t.script.shell = true) := by
  have hkey : ∀ c ∈ finalCheckList agent policies,
      ∃ k, checkKey agent.plat agent.is_supported_script c = some k := by
    intro c hc
    rw [mem_finalCheckList, acceptedChecks] at hc
    obtain ⟨-, -, k, hk, -⟩ :=
      mem_acceptedFrom agent.plat agent.is_supported_script _ _ c hc
    exact ⟨k, hk⟩
  refine ⟨?_, ?_, ?_⟩
  · intro hplat c hc
    obtain ⟨k, hk⟩ := hkey c hc
    refine ⟨?_, ?_, ?_, ?_, ?_⟩ <;>
      (intro hct; simp [checkKey, hct, hplat] at hk)
  · intro c hc hct
    obtain ⟨k, hk⟩ := hkey c hc
    by_cases hsup : agent.is_supported_script c.script.shell = true
    · exact hsup
    · simp [checkKey, hct, hsup] at hk
  · intro t ht
    rw [acceptedTasks, List.mem_filter] at ht
    exact ht.2

/-- C10: saving a brand-new policy (no preexisting pk) enqueues neither the
agent re-resolution task nor the alert-template cache refresh, whatever the
new field values; either side effect requires an existing stored row whose
corresponding field changed. -/
theorem policy_save_new_no_side_effects (db : Nat → Option PolicyFields)
    (p : PolicyFields) :
    save_effects db none p = [] ∧
    (∀ (pk : Option Nat) (eff : SaveEffect), eff ∈ save_effects db pk p →
      ∃ k old, pk = some k ∧ db k = some old ∧
        ((eff = SaveEffect.generateAgentChecks ∧
            (old.active ≠ p.active ∨ old.enforced ≠ p.enforced)) ∨
         (eff = SaveEffect.cacheAlertTemplate ∧
            old.alert_template ≠ p.alert_template))) := by
  constructor
  · rfl
  · intro pk eff heff
    cases pk with
    | none => simp [save_effects] at heff
    | some k =>
        cases hdb : db k with
        | none => simp [save_effects, hdb] at heff
        | some o =>
            simp only [save_effects, hdb] at heff
            rw [List.mem_append] at heff
            refine ⟨k, o, rfl, hdb, ?_⟩
            rcases heff with h | h
            · by_cases hcond : o.active ≠ p.active ∨ o.enforced ≠ p.enforced
              · rw [if_pos hcond, List.mem_singleton] at h
                exact Or.inl ⟨h, hcond⟩
              · rw [if_neg hcond] at h
                cases h
            · by_cases hcond : o.alert_template ≠ p.alert_template
              · rw [if_pos hcond, List.mem_singleton] at h
                exact Or.inr ⟨h, hcond⟩
              · rw [if_neg hcond] at h
                cases h

theorem staleTaskParents_not_accepted (agent : CAgent) (policies : AgentPolicies)
    (q : Option Nat) (hq : q ∈ staleTaskParents agent policies) :
    q ∈ taskParentPks agent ∧
      q ∉ (acceptedTasks agent policies).map (fun t => some t.pk) := by
  rw [staleTaskParents, List.mem_filter] at hq
  exact ⟨hq.1, by simpa using hq.2⟩

/-- C2 counterexample: `agWin` holds the managed check `managedSynced` whose
`sync_status` is `"notsynced"` (it had been synced); with no applicable
policy its parent template is stale, and `cascade_policy_checks` deletes it
outright instead of transitioning it to `pendingdeletion` — so for checks
the claimed initial/pendingdeletion distinction does not exist. -/
theorem check_retirement_counterexample :
    managedSynced.managed_by_policy = true ∧
    managedSynced.sync_status ≠ "initial" ∧
    managedSynced ∈ agWin.agentchecks ∧
    managedSynced.parent_check ∈ staleCheckParents agWin stackEmpty ∧
    (cascade_policy_checks agWin stackEmpty).new_agentchecks = [directPing] := by
  decide

/-- C2 amended: tasks follow the claimed rule — a stale managed task is
deleted exactly when it was never synced (`sync_status = "initial"`) and
otherwise moved to `pendingdeletion` — but a stale managed check is always
deleted outright, regardless of its sync status. -/
theorem retirement_amended (agent : CAgent) (policies : AgentPolicies) :
    (∀ t ∈ agent.autotasks, t.parent_task ∈ staleTaskParents agent policies →
      (t.sync_status = "initial" →
        t ∉ (cascade_policy_tasks agent policies).new_autotasks) ∧
      (t.sync_status ≠ "initial" →
        { t with sync_status := "pendingdeletion" } ∈
          (cascade_policy_tasks agent policies).new_autotasks)) ∧
    (∀ c ∈ agent.agentchecks, c.managed_by_policy = true →
      c.parent_check ∈ staleCheckParents agent policies →
      c ∉ (cascade_policy_checks agent policies).new_agentchecks) := by
  constructor
  · intro t ht hstale
    constructor
    · intro hinit hmem
      rw [show (cascade_policy_tasks agent policies).new_autotasks =
        newAutotasks agent policies from rfl, newAutotasks, List.mem_map] at hmem
      obtain ⟨u, hu, hrev⟩ := hmem
      rw [tasksAfterStale, List.mem_filterMap] at hu
      obtain ⟨v, _, hsf⟩ := hu
      by_cases hvp : v.parent_task ∈ staleTaskParents agent policies
      · rw [if_pos hvp] at hsf
        by_cases hvi : v.sync_status = "initial"
        · rw [if_pos hvi] at hsf; cases hsf
        · rw [if_neg hvi] at hsf
          injection hsf with hsf
          subst hsf
          have hnacc : ({ v with sync_status := "pendingdeletion" } : AutoTask).parent_task ∉
              (acceptedTasks agent policies).map (fun t2 => some t2.pk) := by
            simpa using (staleTaskParents_not_accepted agent policies _ hvp).2
          rw [if_neg (fun hand => hnacc hand.2)] at hrev
          rw [← hrev] at hinit
          simp at hinit
      · rw [if_neg hvp] at hsf
        injection hsf with hsf
        subst hsf
        by_cases hcond : v.sync_status = "pendingdeletion" ∧
            v.parent_task ∈ (acceptedTasks agent policies).map (fun t2 => some t2.pk)
        · rw [if_pos hcond] at hrev
          rw [← hrev] at hinit
          simp at hinit
        · rw [if_neg hcond] at hrev
          rw [← hrev] at hstale
          exact hvp hstale
    · intro hinit
      rw [show (cascade_policy_tasks agent policies).new_autotasks =
        newAutotasks agent policies from rfl, newAutotasks, List.mem_map]
      refine ⟨{ t with sync_status := "pendingdeletion" }, ?_, ?_⟩
      · rw [tasksAfterStale, List.mem_filterMap]
        exact ⟨t, ht, by rw [if_pos hstale, if_neg hinit]⟩
      · have hnacc : ({ t with sync_status := "pendingdeletion" } : AutoTask).parent_task ∉
            (acceptedTasks agent policies).map (fun t2 => some t2.pk) := by
          simpa using (staleTaskParents_not_accepted agent policies _ hstale).2
        rw [if_neg (fun hand => hnacc hand.2)]
  · intro c hc hm hp hmem
    rw [show (cascade_policy_checks agent policies).new_agentchecks =
      newAgentChecks agent policies from rfl, newAgentChecks, List.mem_map] at hmem
    obtain ⟨u, hu, hupd⟩ := hmem
    rw [List.mem_filter] at hu
    by_cases hcond : u.managed_by_policy = false ∧
        u.pk ∈ (checkFold agent policies).overridden
    · rw [if_pos hcond] at hupd
      have hcm : c.managed_by_policy = false := by
        rw [← hupd]; exact hcond.1
      rw [hm] at hcm
      cases hcm
    · rw [if_neg hcond] at hupd
      subst hupd
      have hkeep := hu.2
      simp only [decide_eq_true_eq] at hkeep
      exact hkeep ⟨hm, hp⟩

/-- C3 counterexample: `agWinPending` holds the managed check
`managedPendingDel` stuck in `pendingdeletion` whose parent template (pk 5)
is accepted again by the cascade, yet `cascade_policy_checks` leaves its
`sync_status` untouched — the revival step exists only for tasks. -/
theorem check_revival_counterexample :
    managedPendingDel.sync_status = "pendingdeletion" ∧
    managedPendingDel.parent_check = some 5 ∧
    (some 5 : Option Nat) ∈
      (finalCheckList agWinPending stackEnforcedOnly).map (fun c => some c.pk) ∧
    (cascade_policy_checks agWinPending stackEnforcedOnly).new_agentchecks =
      [managedPendingDel] := by
  decide

/-- C3 amended: a `pendingdeletion` task whose parent template is among the
accepted tasks' pks is revived in place to `notsynced`, but
`cascade_policy_checks` never changes any check's `sync_status` — checks
have no revival step. -/
theorem revival_amended (agent : CAgent) (policies : AgentPolicies) :
    (∀ t ∈ agent.autotasks, t.sync_status = "pendingdeletion" →
      t.parent_task ∈ (acceptedTasks agent policies).map (fun t2 => some t2.pk) →
      { t with sync_status := "notsynced" } ∈
        (cascade_policy_tasks agent policies).new_autotasks) ∧
    (∀ c ∈ (cascade_policy_checks agent policies).new_agentchecks,
      ∃ c0, c0 ∈ agent.agentchecks ∧ c.pk = c0.pk ∧
        c.parent_check = c0.parent_check ∧ c.sync_status = c0.sync_status) := by
  constructor
  · intro t ht hpend hacc
    have hnstale : t.parent_task ∉ staleTaskParents agent policies := by
      intro h
      exact (staleTaskParents_not_accepted agent policies _ h).2 hacc
    rw [show (cascade_policy_tasks agent policies).new_autotasks =
      newAutotasks agent policies from rfl, newAutotasks, List.mem_map]
    refine ⟨t, ?_, ?_⟩
    · rw [tasksAfterStale, List.mem_filterMap]
      exact ⟨t, ht, by rw [if_neg hnstale]⟩
    · rw [if_pos ⟨hpend, hacc⟩]
  · intro c hmem
    rw [show (cascade_policy_checks agent policies).new_agentchecks =
      newAgentChecks agent policies from rfl, newAgentChecks, List.mem_map] at hmem
    obtain ⟨u, hu, hupd⟩ := hmem
    rw [List.mem_filter] at hu
    refine ⟨u, hu.1, ?_⟩
    by_cases hcond : u.managed_by_policy = false ∧
        u.pk ∈ (checkFold agent policies).overridden
    · rw [if_pos hcond] at hupd
      rw [← hupd]
      exact ⟨rfl, rfl, rfl⟩
    · rw [if_neg hcond] at hupd
      rw [← hupd]
      exact ⟨rfl, rfl, rfl⟩

theorem mem_get_related (w : World) (p : PolicyRec) (mt : String) (a : AgentRec) :
    a ∈ get_related w p mt ↔ a ∈ w.agents ∧
      (a.pk ∈ (viaSiteAgents w p mt).map (fun b => b.pk) ++
          (viaClientAgents w p mt).map (fun b => b.pk) ∨
        a.pk ∈ (explicitAgents w p mt).map (fun b => b.pk)) := by
  rw [get_related, List.mem_filter]
  simp

theorem mem_explicitAgents (w : World) (p : PolicyRec) (mt : String)
    (a : AgentRec) :
    a ∈ explicitAgents w p mt ↔ a ∈ w.agents ∧ a.policy = some p.pk ∧
      a.monitoring_type = mt ∧ a.pk ∉ p.excluded_agents ∧
      a.site.pk ∉ p.excluded_sites ∧ a.site.client ∉ p.excluded_clients := by
  rw [explicitAgents, List.mem_filter]
  simp [and_assoc]

theorem mem_viaSiteAgents (w : World) (p : PolicyRec) (mt : String)
    (a : AgentRec) :
    a ∈ viaSiteAgents w p mt ↔ a ∈ w.agents ∧
      a.block_policy_inheritance = false ∧ a.site ∈ sitePathSites p mt ∧
      a.monitoring_type = mt := by
  rw [viaSiteAgents, List.mem_filter]
  simp [and_assoc]

theorem mem_viaClientAgents (w : World) (p : PolicyRec) (mt : String)
    (a : AgentRec) :
    a ∈ viaClientAgents w p mt ↔ a ∈ w.agents ∧
      a.block_policy_inheritance = false ∧
      a.site.block_policy_inheritance = false ∧
      a.site.client ∈ explicitClients p mt ∧ a.monitoring_type = mt := by
  rw [viaClientAgents, List.mem_filter]
  simp [and_assoc]

theorem mem_sitePathSites (p : PolicyRec) (mt : String) (s : SiteRec) :
    s ∈ sitePathSites p mt ↔ s ∈ monSites p mt ∧ s.pk ∉ p.excluded_sites ∧
      s.client ∉ explicitClients p mt ∧ s.client ∉ p.excluded_clients := by
  rw [sitePathSites, explicitSites, List.mem_filter, List.mem_filter]
  simp [and_assoc]

/-- C1 counterexample: agent pk 1 sits in policy pk 5's excluded-agents set,
yet its site is directly assigned the policy for servers, and the
site-inheritance path of `get_related` never consults the excluded-agents
set — so the excluded agent is in the resolved scope. -/
theorem exclusion_leak_counterexample :
    agentFree.pk ∈ polScope.excluded_agents ∧
    agentFree ∈ get_related worldA polScope "server" := by
  decide

/-- C1 amended: an excluded client always wins — an agent whose client is in
the policy's excluded clients is never in `get_related`'s scope — but the
excluded-agents and excluded-sites sets are honored only on the
explicit-agent path: an excluded agent (or an agent of an excluded site) is
never in the explicit-agents component, yet can still enter the scope
through the site- or client-inheritance paths. -/
theorem exclusion_amended (w : World) (p : PolicyRec) (mt : String)
    (a : AgentRec) (hn : (w.agents.map (fun b => b.pk)).Nodup) :
    (a.site.client ∈ p.excluded_clients → a ∉ get_related w p mt) ∧
    (a.pk ∈ p.excluded_agents ∨ a.site.pk ∈ p.excluded_sites →
      a ∉ explicitAgents w p mt) := by
  have huniq := List.inj_on_of_nodup_map hn
  constructor
  · intro hexcl hmem
    rw [mem_get_related] at hmem
    obtain ⟨haw, hcase⟩ := hmem
    rcases hcase with hvia | hexp
    · rw [List.mem_append] at hvia
      rcases hvia with hv | hv
      · rw [List.mem_map] at hv
        obtain ⟨b, hb, hbpk⟩ := hv
        rw [mem_viaSiteAgents] at hb
        have hba : b = a := huniq hb.1 haw hbpk
        subst hba
        rw [mem_sitePathSites] at hb
        exact hb.2.2.1.2.2.2 hexcl
      · rw [List.mem_map] at hv
        obtain ⟨b, hb, hbpk⟩ := hv
        rw [mem_viaClientAgents] at hb
        have hba : b = a := huniq hb.1 haw hbpk
        subst hba
        have hcl := hb.2.2.2.1
        rw [explicitClients, List.mem_filter] at hcl
        simp only [decide_eq_true_eq] at hcl
        exact hcl.2 hexcl
    · rw [List.mem_map] at hexp
      obtain ⟨b, hb, hbpk⟩ := hexp
      rw [mem_explicitAgents] at hb
      have hba : b = a := huniq hb.1 haw hbpk
      subst hba
      exact hb.2.2.2.2.2 hexcl
  · intro hor hmem
    rw [mem_explicitAgents] at hmem
    rcases hor with h | h
    · exact hmem.2.2.2.1 h
    · exact hmem.2.2.2.2.1 h

/-- C1 amended witness at a concrete world: the excluded client keeps the
agent out of both the scope and the explicit-agents component. -/
theorem exclusion_amended_witness :
    ((worldA.agents.map (fun b => b.pk)).Nodup ∧
      agentFree.site.client ∈ polScopeClientExcl.excluded_clients ∧
      agentFree.pk ∈ polScopeClientExcl.excluded_agents) ∧
    agentFree ∉ get_related worldA polScopeClientExcl "server" ∧
    agentFree ∉ explicitAgents worldA polScopeClientExcl "server" :=
  ⟨by decide,
   (exclusion_amended worldA polScopeClientExcl "server" agentFree
      (by decide)).1 (by decide),
   (exclusion_amended worldA polScopeClientExcl "server" agentFree
      (by decide)).2 (Or.inl (by decide))⟩

/-- C8: an agent with `block_policy_inheritance = true` can be in a policy's
scope only through direct assignment (both inheritance paths exclude it),
and a site's `block_policy_inheritance` flag blocks only the
client-inheritance path — a policy explicitly assigned to such a site still
reaches the site's agents through the site path. -/
theorem inheritance_blocking (w : World) (p : PolicyRec) (mt : String)
    (a : AgentRec) :
    ((w.agents.map (fun b => b.pk)).Nodup → a.block_policy_inheritance = true →
      a ∈ get_related w p mt →
      a.policy = some p.pk ∧ a ∈ explicitAgents w p mt) ∧
    (a ∈ w.agents → a.block_policy_inheritance = false →
      a.monitoring_type = mt → a.site.block_policy_inheritance = true →
      a.site ∈ monSites p mt → a.site.pk ∉ p.excluded_sites →
      a.site.client ∉ monClients p mt → a.site.client ∉ p.excluded_clients →
      a ∈ get_related w p mt) := by
  constructor
  · intro hn hblock hmem
    have huniq := List.inj_on_of_nodup_map hn
    rw [mem_get_related] at hmem
    obtain ⟨haw, hcase⟩ := hmem
    rcases hcase with hvia | hexp
    · exfalso
      rw [List.mem_append] at hvia
      rcases hvia with hv | hv
      · rw [List.mem_map] at hv
        obtain ⟨b, hb, hbpk⟩ := hv
        rw [mem_viaSiteAgents] at hb
        have hba : b = a := huniq hb.1 haw hbpk
        subst hba
        rw [hblock] at hb
        cases hb.2.1
      · rw [List.mem_map] at hv
        obtain ⟨b, hb, hbpk⟩ := hv
        rw [mem_viaClientAgents] at hb
        have hba : b = a := huniq hb.1 haw hbpk
        subst hba
        rw [hblock] at hb
        cases hb.2.1
    · rw [List.mem_map] at hexp
      obtain ⟨b, hb, hbpk⟩ := hexp
      rw [mem_explicitAgents] at hb
      have hba : b = a := huniq hb.1 haw hbpk
      subst hba
      exact ⟨hb.2.1, (mem_explicitAgents _ _ _ _).mpr hb⟩
  · intro haw hblock hmt hsblock hsite hsexcl hclexp hclexcl
    have hvia : a ∈ viaSiteAgents w p mt := by
      rw [mem_viaSiteAgents]
      refine ⟨haw, hblock, ?_, hmt⟩
      rw [mem_sitePathSites]
      refine ⟨hsite, hsexcl, ?_, hclexcl⟩
      intro hmem
      rw [explicitClients, List.mem_filter] at hmem
      exact hclexp hmem.1
    rw [mem_get_related]
    refine ⟨haw, Or.inl ?_⟩
    rw [List.mem_append]
    exact Or.inl (List.mem_map.mpr ⟨a, hvia, rfl⟩)

/-- C8 witness at a concrete world: the inheritance-blocking agent is in
scope only via its direct assignment, and the agent under the
inheritance-blocking site still receives the site-assigned policy. -/
theorem inheritance_blocking_witness :
    (agentBlockedAssigned.block_policy_inheritance = true ∧
      agentBlockedAssigned.policy = some polScope.pk ∧
      agentBlockedAssigned ∈ explicitAgents worldA polScope "server") ∧
    (agentAtBlockedSite.site.block_policy_inheritance = true ∧
      agentAtBlockedSite ∈ get_related worldA polScope "server") :=
  ⟨⟨by decide,
    (inheritance_blocking worldA polScope "server" agentBlockedAssigned).1
      (by decide) (by decide) (by decide)⟩,
   by decide,
   (inheritance_blocking worldA polScope "server" agentAtBlockedSite).2
     (by decide) (by decide) (by decide) (by decide) (by decide) (by decide)
     (by decide) (by decide)⟩

/-! ### Lemmas for idempotence (C5) -/

theorem filterMap_some_self {α : Type} (f : α → Option α) :
    ∀ (l : List α), (∀ a ∈ l, f a = some a) → l.filterMap f = l := by
  intro l
  induction l with
  | nil => intro _; rfl
  | cons a t ih =>
      intro h
      rw [List.filterMap_cons, h a (List.mem_cons_self a t),
        ih (fun b hb => h b (List.mem_cons_of_mem a hb))]

theorem checkKey_set_flag (plat : String) (sup : String → Bool) (c : Check) :
    checkKey plat sup { c with overriden_by_policy := true } =
      checkKey plat sup c := by
  cases c
  rfl

theorem check_set_flag_self (c : Check) (h : c.overriden_by_policy = true) :
    ({ c with overriden_by_policy := true } : Check) = c := by
  cases c
  simp_all

theorem autotask_set_sync_self (t : AutoTask) (s : String)
    (h : t.sync_status = s) : ({ t with sync_status := s } : AutoTask) = t := by
  cases t
  simp_all

theorem mem_materializeChecks (apk : Nat) :
    ∀ (l : List Check) (fresh : Nat) (x : Check),
      x ∈ materializeChecks apk fresh l →
      ∃ c ∈ l, ∃ f, x = create_policy_check f apk c := by
  intro l
  induction l with
  | nil => intro fresh x hx; cases hx
  | cons c t ih =>
      intro fresh x hx
      rw [materializeChecks, List.mem_cons] at hx
      rcases hx with rfl | hx
      · exact ⟨c, List.mem_cons_self c t, fresh, rfl⟩
      · obtain ⟨c0, hc0, f, hf⟩ := ih (fresh + 1) x hx
        exact ⟨c0, List.mem_cons_of_mem c hc0, f, hf⟩

theorem materializeChecks_parent_pks (apk : Nat) :
    ∀ (l : List Check) (fresh : Nat),
      (materializeChecks apk fresh l).map (fun c => c.parent_check) =
        l.map (fun c => some c.pk) := by
  intro l
  induction l with
  | nil => intro fresh; rfl
  | cons c t ih =>
      intro fresh
      rw [materializeChecks, List.map_cons, List.map_cons, ih (fresh + 1)]
      rfl

theorem mem_materializeTasks :
    ∀ (l : List AutoTask) (fresh : Nat) (x : AutoTask),
      x ∈ materializeTasks fresh l →
      ∃ t ∈ l, ∃ f, x = create_policy_task f t := by
  intro l
  induction l with
  | nil => intro fresh x hx; cases hx
  | cons t r ih =>
      intro fresh x hx
      rw [materializeTasks, List.mem_cons] at hx
      rcases hx with rfl | hx
      · exact ⟨t, List.mem_cons_self t r, fresh, rfl⟩
      · obtain ⟨t0, ht0, f, hf⟩ := ih (fresh + 1) x hx
        exact ⟨t0, List.mem_cons_of_mem t ht0, f, hf⟩

theorem materializeTasks_parent_pks :
    ∀ (l : List AutoTask) (fresh : Nat),
      (materializeTasks fresh l).map (fun t => t.parent_task) =
        l.map (fun t => some t.pk) := by
  intro l
  induction l with
  | nil => intro fresh; rfl
  | cons t r ih =>
      intro fresh
      rw [materializeTasks, List.map_cons, List.map_cons, ih (fresh + 1)]
      rfl

theorem acceptedFrom_congr (plat : String) (sup : String → Bool) :
    ∀ (L L' : List Check),
      List.Forall₂ (fun c c' => checkKey plat sup c = checkKey plat sup c' ∧
        c.pk = c'.pk ∧ c.agent = c'.agent) L L' →
      ∀ K, (acceptedFrom plat sup K L).map (fun c => c.pk) =
          (acceptedFrom plat sup K L').map (fun c => c.pk) ∧
        overriddenFrom plat sup K L = overriddenFrom plat sup K L' := by
  intro L L' hrel
  induction hrel with
  | nil => intro K; exact ⟨rfl, rfl⟩
  | @cons c c' t t' hcc hrest ih =>
      intro K
      obtain ⟨hk, hpk, hag⟩ := hcc
      cases hkc : checkKey plat sup c with
      | none =>
          have hkc' : checkKey plat sup c' = none := by rw [← hk, hkc]
          simp only [acceptedFrom, overriddenFrom, hkc, hkc']
          exact ih K
      | some k =>
          have hkc' : checkKey plat sup c' = some k := by rw [← hk, hkc]
          by_cases hseen : k ∈ K
          · simp only [acceptedFrom, overriddenFrom, hkc, hkc', if_pos hseen]
            rw [← hag, ← hpk]
            refine ⟨(ih K).1, ?_⟩
            by_cases hs : c.agent.isSome
            · rw [if_pos hs, if_pos hs, (ih K).2]
            · rw [if_neg hs, if_neg hs, (ih K).2]
          · by_cases hagn : c.agent = none
            · have hagn' : c'.agent = none := by rw [← hag, hagn]
              simp only [acceptedFrom, overriddenFrom, hkc, hkc', if_neg hseen,
                if_pos hagn, if_pos hagn', List.map_cons]
              exact ⟨by rw [hpk, (ih (k :: K)).1], (ih (k :: K)).2⟩
            · have hagn' : ¬ c'.agent = none := by rw [← hag]; exact hagn
              simp only [acceptedFrom, overriddenFrom, hkc, hkc', if_neg hseen,
                if_neg hagn, if_neg hagn']
              exact ih (k :: K)

theorem forall₂_map_left {α : Type} {R : α → α → Prop} (f : α → α)
    (hf : ∀ a, R (f a) a) : ∀ (l : List α), List.Forall₂ R (l.map f) l := by
  intro l
  induction l with
  | nil => exact List.Forall₂.nil
  | cons a t ih => exact List.Forall₂.cons (hf a) ih

theorem forall₂_refl_of {α : Type} {R : α → α → Prop}
    (hR : ∀ a, R a a) (l : List α) : List.Forall₂ R l l :=
  List.forall₂_same.mpr (fun a _ => hR a)

theorem directChecks_after_generate (f1 : Nat) (agent : CAgent)
    (policies : AgentPolicies) :
    directChecks (generate_policy_checks f1 agent policies) =
      (directChecks agent).map
        (fun c =>
          if c.managed_by_policy = false ∧
              c.pk ∈ (checkFold agent policies).overridden
          then { c with overriden_by_policy := true } else c) := by
  show (newAgentChecks agent policies ++
      materializeChecks agent.pk f1
        ((cascade_policy_checks agent policies).returned)).filter _ = _
  rw [List.filter_append]
  have hmat : (materializeChecks agent.pk f1
      ((cascade_policy_checks agent policies).returned)).filter
        (fun c => decide (c.managed_by_policy = false)) = [] := by
    rw [List.filter_eq_nil_iff]
    intro x hx
    obtain ⟨c0, -, f, rfl⟩ := mem_materializeChecks agent.pk _ f1 x hx
    simp [create_policy_check]
  rw [hmat, List.append_nil]
  rw [newAgentChecks, List.filter_map]
  have hcomp : ∀ u ∈ agent.agentchecks.filter
      (fun c => decide (¬(c.managed_by_policy = true ∧
        c.parent_check ∈ staleCheckParents agent policies))),
      ((fun c => decide (c.managed_by_policy = false)) ∘
        (fun c =>
          if c.managed_by_policy = false ∧
              c.pk ∈ (checkFold agent policies).overridden
          then { c with overriden_by_policy := true } else c)) u =
        (fun c => decide (c.managed_by_policy = false)) u := by
    intro u _
    by_cases hcond : u.managed_by_policy = false ∧
        u.pk ∈ (checkFold agent policies).overridden
    · simp only [Function.comp_apply, if_pos hcond]
    · simp only [Function.comp_apply, if_neg hcond]
  rw [List.filter_congr hcomp]
  congr 1
  rw [directChecks, List.filter_filter]
  apply List.filter_congr
  intro c _
  by_cases hm : c.managed_by_policy = true
  · simp [hm]
  · simp [hm]

theorem accepted_pks_after_generate (f1 : Nat) (agent : CAgent)
    (policies : AgentPolicies) :
    (acceptedChecks (generate_policy_checks f1 agent policies) policies).map
        (fun c => c.pk) =
      (acceptedChecks agent policies).map (fun c => c.pk) ∧
    overriddenChecks (generate_policy_checks f1 agent policies) policies =
      overriddenChecks agent policies := by
  have hrel : List.Forall₂ (fun c c' =>
      checkKey agent.plat agent.is_supported_script c =
        checkKey agent.plat agent.is_supported_script c' ∧
      c.pk = c'.pk ∧ c.agent = c'.agent)
      (candidateChecks (generate_policy_checks f1 agent policies) policies)
      (candidateChecks agent policies) := by
    rw [candidateChecks, candidateChecks,
      directChecks_after_generate f1 agent policies]
    refine List.rel_append
      (List.rel_append (forall₂_refl_of (fun a => ⟨rfl, rfl, rfl⟩) _)
        (forall₂_map_left _ ?_ _))
      (forall₂_refl_of (fun a => ⟨rfl, rfl, rfl⟩) _)
    intro c
    by_cases hcond : c.managed_by_policy = false ∧
        c.pk ∈ (checkFold agent policies).overridden
    · rw [if_pos hcond]
      exact ⟨checkKey_set_flag agent.plat agent.is_supported_script c, rfl, rfl⟩
    · rw [if_neg hcond]
      exact ⟨rfl, rfl, rfl⟩
  exact acceptedFrom_congr agent.plat agent.is_supported_script _ _ hrel []

theorem final_pks_after_generate (f1 : Nat) (agent : CAgent)
    (policies : AgentPolicies) (q : Option Nat) :
    q ∈ (finalCheckList (generate_policy_checks f1 agent policies) policies).map
        (fun c => some c.pk) ↔
      q ∈ (finalCheckList agent policies).map (fun c => some c.pk) := by
  have h1 : ∀ (ag : CAgent), (finalCheckList ag policies).map (fun c => some c.pk) =
      ((finalCheckList ag policies).map (fun c => c.pk)).map some := by
    intro ag
    rw [List.map_map]
    rfl
  rw [h1, h1]
  have hp1 := ((finalCheckList_perm (generate_policy_checks f1 agent policies)
    policies).map (fun c => c.pk)).map some
  have hp0 := ((finalCheckList_perm agent policies).map (fun c => c.pk)).map some
  rw [hp1.mem_iff, hp0.mem_iff,
    (accepted_pks_after_generate f1 agent policies).1]

theorem parentPks_after_generate_sub (f1 : Nat) (agent : CAgent)
    (policies : AgentPolicies) :
    ∀ q ∈ checkParentPks (generate_policy_checks f1 agent policies),
      q ∈ (finalCheckList agent policies).map (fun c => some c.pk) := by
  intro q hq
  rw [checkParentPks, List.mem_map] at hq
  obtain ⟨x, hx, hqx⟩ := hq
  rw [List.mem_filter] at hx
  obtain ⟨hxmem, hxman⟩ := hx
  simp only [decide_eq_true_eq] at hxman
  rw [show (generate_policy_checks f1 agent policies).agentchecks =
    newAgentChecks agent policies ++
      materializeChecks agent.pk f1
        ((cascade_policy_checks agent policies).returned) from rfl,
    List.mem_append] at hxmem
  rcases hxmem with hxm | hxm
  · rw [newAgentChecks, List.mem_map] at hxm
    obtain ⟨u, hu, hux⟩ := hxm
    rw [List.mem_filter] at hu
    have hpar : x.parent_check = u.parent_check := by
      rw [← hux]; split <;> rfl
    have hman : x.managed_by_policy = u.managed_by_policy := by
      rw [← hux]; split <;> rfl
    have human : u.managed_by_policy = true := by rw [← hman, hxman]
    have hupp : u.parent_check ∈ checkParentPks agent := by
      rw [checkParentPks]
      exact List.mem_map.mpr ⟨u, List.mem_filter.mpr ⟨hu.1, by simp [human]⟩, rfl⟩
    have hukeep := hu.2
    simp only [decide_eq_true_eq] at hukeep
    by_contra hnot
    rw [← hqx, hpar] at hnot
    exact hukeep ⟨human, by
      rw [staleCheckParents, List.mem_filter]
      exact ⟨hupp, by simpa using hnot⟩⟩
  · obtain ⟨c0, hc0, f, rfl⟩ := mem_materializeChecks agent.pk _ f1 x hxm
    rw [← hqx]
    have : (create_policy_check f agent.pk c0).parent_check = some c0.pk := rfl
    rw [this]
    rw [mem_returned] at hc0
    exact List.mem_map.mpr ⟨c0, hc0.1, rfl⟩

theorem final_pks_subset_parentPks (f1 : Nat) (agent : CAgent)
    (policies : AgentPolicies) :
    ∀ c ∈ finalCheckList agent policies,
      some c.pk ∈ checkParentPks (generate_policy_checks f1 agent policies) := by
  intro c hc
  rw [checkParentPks]
  by_cases hin : some c.pk ∈ checkParentPks agent
  · rw [checkParentPks, List.mem_map] at hin
    obtain ⟨v, hv, hvp⟩ := hin
    rw [List.mem_filter] at hv
    have hvman : v.managed_by_policy = true := by simpa using hv.2
    have hnotstale : v.parent_check ∉ staleCheckParents agent policies := by
      intro hst
      rw [staleCheckParents, List.mem_filter] at hst
      have h2 := hst.2
      simp only [decide_eq_true_eq] at h2
      exact h2 (hvp ▸ List.mem_map.mpr ⟨c, hc, rfl⟩)
    refine List.mem_map.mpr
      ⟨(fun u =>
          if u.managed_by_policy = false ∧
              u.pk ∈ (checkFold agent policies).overridden
          then { u with overriden_by_policy := true } else u) v,
        List.mem_filter.mpr ⟨?_, ?_⟩, ?_⟩
    · rw [show (generate_policy_checks f1 agent policies).agentchecks =
        newAgentChecks agent policies ++
          materializeChecks agent.pk f1
            ((cascade_policy_checks agent policies).returned) from rfl,
        List.mem_append]
      refine Or.inl ?_
      rw [newAgentChecks, List.mem_map]
      exact ⟨v, List.mem_filter.mpr ⟨hv.1, by
        simp only [decide_eq_true_eq]
        intro hand
        exact hnotstale hand.2⟩, rfl⟩
    · have : v.managed_by_policy = false ∧
          v.pk ∈ (checkFold agent policies).overridden → False := by
        intro hand
        rw [hvman] at hand
        cases hand.1
      simp only [if_neg this]
      simp [hvman]
    · have : v.managed_by_policy = false ∧
          v.pk ∈ (checkFold agent policies).overridden → False := by
        intro hand
        rw [hvman] at hand
        cases hand.1
      simp only [if_neg this]
      exact hvp
  · have hcret : c ∈ (cascade_policy_checks agent policies).returned :=
      (mem_returned agent policies c).mpr ⟨hc, hin⟩
    have hpk : some c.pk ∈ (materializeChecks agent.pk f1
        ((cascade_policy_checks agent policies).returned)).map
          (fun x => x.parent_check) := by
      rw [materializeChecks_parent_pks]
      exact List.mem_map.mpr ⟨c, hcret, rfl⟩
    obtain ⟨x, hxmem, hxp⟩ := List.mem_map.mp hpk
    have hxman : x.managed_by_policy = true := by
      obtain ⟨c0, -, f, rfl⟩ := mem_materializeChecks agent.pk _ f1 x hxmem
      rfl
    refine List.mem_map.mpr ⟨x, List.mem_filter.mpr ⟨?_, by simp [hxman]⟩, hxp⟩
    rw [show (generate_policy_checks f1 agent policies).agentchecks =
      newAgentChecks agent policies ++
        materializeChecks agent.pk f1
          ((cascade_policy_checks agent policies).returned) from rfl,
      List.mem_append]
    exact Or.inr hxmem

theorem stale_after_generate (f1 : Nat) (agent : CAgent)
    (policies : AgentPolicies) :
    staleCheckParents (generate_policy_checks f1 agent policies) policies = [] := by
  rw [staleCheckParents, List.filter_eq_nil_iff]
  intro q hq
  simp only [decide_eq_true_eq, not_not]
  rw [final_pks_after_generate f1 agent policies q]
  exact parentPks_after_generate_sub f1 agent policies q hq

theorem returned_after_generate (f1 : Nat) (agent : CAgent)
    (policies : AgentPolicies) :
    (cascade_policy_checks (generate_policy_checks f1 agent policies)
      policies).returned = [] := by
  show (finalCheckList (generate_policy_checks f1 agent policies)
    policies).filter _ = []
  rw [List.filter_eq_nil_iff]
  intro c hc
  simp only [decide_eq_true_eq, not_not]
  have hpk : some c.pk ∈ (finalCheckList agent policies).map
      (fun c => some c.pk) := by
    rw [← final_pks_after_generate f1 agent policies]
    exact List.mem_map.mpr ⟨c, hc, rfl⟩
  obtain ⟨c0, hc0, hc0pk⟩ := List.mem_map.mp hpk
  rw [← hc0pk]
  exact final_pks_subset_parentPks f1 agent policies c0 hc0

theorem newAgentChecks_after_generate (f1 : Nat) (agent : CAgent)
    (policies : AgentPolicies) :
    newAgentChecks (generate_policy_checks f1 agent policies) policies =
      (generate_policy_checks f1 agent policies).agentchecks := by
  rw [newAgentChecks, stale_after_generate]
  have hfil : (generate_policy_checks f1 agent policies).agentchecks.filter
      (fun c => decide (¬(c.managed_by_policy = true ∧
        c.parent_check ∈ ([] : List (Option Nat))))) =
      (generate_policy_checks f1 agent policies).agentchecks := by
    rw [List.filter_eq_self]
    intro c _
    simp
  rw [hfil]
  have hid : ∀ c ∈ (generate_policy_checks f1 agent policies).agentchecks,
      (if c.managed_by_policy = false ∧
          c.pk ∈ (checkFold (generate_policy_checks f1 agent policies)
            policies).overridden
       then { c with overriden_by_policy := true } else c) = c := by
    intro c hc
    by_cases hcond : c.managed_by_policy = false ∧
        c.pk ∈ (checkFold (generate_policy_checks f1 agent policies)
          policies).overridden
    · rw [if_pos hcond]
      have hov1 : c.pk ∈ (checkFold agent policies).overridden := by
        have he : (checkFold (generate_policy_checks f1 agent policies)
            policies).overridden = (checkFold agent policies).overridden := by
          rw [checkFold_overridden, checkFold_overridden]
          exact (accepted_pks_after_generate f1 agent policies).2
        rw [← he]
        exact hcond.2
      have hflag : c.overriden_by_policy = true := by
        rw [show (generate_policy_checks f1 agent policies).agentchecks =
          newAgentChecks agent policies ++
            materializeChecks agent.pk f1
              ((cascade_policy_checks agent policies).returned) from rfl,
          List.mem_append] at hc
        rcases hc with hc | hc
        · rw [newAgentChecks, List.mem_map] at hc
          obtain ⟨u, hu, huc⟩ := hc
          have hman : u.managed_by_policy = c.managed_by_policy := by
            rw [← huc]; split <;> rfl
          have hpk : u.pk = c.pk := by
            rw [← huc]; split <;> rfl
          have hcondu : u.managed_by_policy = false ∧
              u.pk ∈ (checkFold agent policies).overridden := by
            rw [hman, hpk]
            exact ⟨hcond.1, hov1⟩
          rw [if_pos hcondu] at huc
          rw [← huc]
        · exfalso
          obtain ⟨c0, -, f, rfl⟩ := mem_materializeChecks agent.pk _ f1 _ hc
          have : (create_policy_check f agent.pk c0).managed_by_policy = true := rfl
          rw [this] at hcond
          cases hcond.1
      exact check_set_flag_self c hflag
    · rw [if_neg hcond]
  calc (generate_policy_checks f1 agent policies).agentchecks.map _ =
      (generate_policy_checks f1 agent policies).agentchecks.map id := by
        exact List.map_congr_left hid
    _ = _ := List.map_id _

theorem generate_checks_idem (f1 f2 : Nat) (agent : CAgent)
    (policies : AgentPolicies) :
    generate_policy_checks f2 (generate_policy_checks f1 agent policies)
        policies =
      generate_policy_checks f1 agent policies := by
  rw [show generate_policy_checks f2 (generate_policy_checks f1 agent policies)
      policies =
    { generate_policy_checks f1 agent policies with
      agentchecks :=
        newAgentChecks (generate_policy_checks f1 agent policies) policies ++
          materializeChecks (generate_policy_checks f1 agent policies).pk f2
            ((cascade_policy_checks (generate_policy_checks f1 agent policies)
              policies).returned) } from rfl]
  rw [returned_after_generate, newAgentChecks_after_generate]
  rw [show materializeChecks (generate_policy_checks f1 agent policies).pk f2
    ([] : List Check) = [] from rfl, List.append_nil]

theorem taskParentPks_mem (agent : CAgent) (q : Option Nat) :
    q ∈ taskParentPks agent ↔
      ∃ v ∈ agent.autotasks, v.managed_by_policy = true ∧ v.parent_task = q := by
  rw [taskParentPks]
  constructor
  · intro h
    obtain ⟨v, hv, hq⟩ := List.mem_map.mp h
    rw [List.mem_filter] at hv
    exact ⟨v, hv.1, by simpa using hv.2, hq⟩
  · rintro ⟨v, hv, hman, rfl⟩
    exact List.mem_map.mpr ⟨v, List.mem_filter.mpr ⟨hv, by simp [hman]⟩, rfl⟩

theorem mem_newAutotasks_spec (agent : CAgent) (policies : AgentPolicies)
    (x : AutoTask) (hx : x ∈ newAutotasks agent policies) :
    ∃ v ∈ agent.autotasks,
      x.managed_by_policy = v.managed_by_policy ∧
      x.parent_task = v.parent_task ∧ x.pk = v.pk ∧
      ((v.parent_task ∈ staleTaskParents agent policies ∧
          v.sync_status ≠ "initial" ∧ x.sync_status = "pendingdeletion") ∨
       (v.parent_task ∉ staleTaskParents agent policies ∧
          v.sync_status = "pendingdeletion" ∧
          v.parent_task ∈ (acceptedTasks agent policies).map
            (fun t2 => some t2.pk) ∧
          x.sync_status = "notsynced") ∨
       (v.parent_task ∉ staleTaskParents agent policies ∧
          ¬(v.sync_status = "pendingdeletion" ∧
            v.parent_task ∈ (acceptedTasks agent policies).map
              (fun t2 => some t2.pk)) ∧
          x = v)) := by
  rw [newAutotasks, List.mem_map] at hx
  obtain ⟨u, hu, hux⟩ := hx
  rw [tasksAfterStale, List.mem_filterMap] at hu
  obtain ⟨v, hv, hvu⟩ := hu
  refine ⟨v, hv, ?_⟩
  by_cases hst : v.parent_task ∈ staleTaskParents agent policies
  · rw [if_pos hst] at hvu
    by_cases hvi : v.sync_status = "initial"
    · rw [if_pos hvi] at hvu
      cases hvu
    · rw [if_neg hvi] at hvu
      injection hvu with hvu
      subst hvu
      have hupar : ({ v with sync_status := "pendingdeletion" } :
          AutoTask).parent_task ∉ (acceptedTasks agent policies).map
            (fun t2 => some t2.pk) := by
        simpa using (staleTaskParents_not_accepted agent policies _ hst).2
      rw [if_neg (fun hand => hupar hand.2)] at hux
      subst hux
      exact ⟨rfl, rfl, rfl, Or.inl ⟨hst, hvi, rfl⟩⟩
  · rw [if_neg hst] at hvu
    injection hvu with hvu
    subst hvu
    by_cases hcond : v.sync_status = "pendingdeletion" ∧
        v.parent_task ∈ (acceptedTasks agent policies).map (fun t2 => some t2.pk)
    · rw [if_pos hcond] at hux
      subst hux
      exact ⟨rfl, rfl, rfl, Or.inr (Or.inl ⟨hst, hcond.1, hcond.2, rfl⟩)⟩
    · rw [if_neg hcond] at hux
      subst hux
      exact ⟨rfl, rfl, rfl, Or.inr (Or.inr ⟨hst, hcond, rfl⟩)⟩

theorem acceptedTasks_after_generate (g1 : Nat) (agent : CAgent)
    (policies : AgentPolicies) :
    acceptedTasks (generate_policy_tasks g1 agent policies) policies =
      acceptedTasks agent policies := rfl

theorem autotasks_after_generate (g1 : Nat) (agent : CAgent)
    (policies : AgentPolicies) :
    (generate_policy_tasks g1 agent policies).autotasks =
      newAutotasks agent policies ++
        materializeTasks g1 ((cascade_policy_tasks agent policies).returned) := rfl

theorem taskParents_after_generate_sub (g1 : Nat) (agent : CAgent)
    (policies : AgentPolicies) :
    ∀ q ∈ taskParentPks (generate_policy_tasks g1 agent policies),
      q ∈ (acceptedTasks agent policies).map (fun t => some t.pk) ∨
        q ∈ staleTaskParents agent policies := by
  intro q hq
  obtain ⟨x, hx, hxman, hxq⟩ := (taskParentPks_mem _ q).mp hq
  rw [autotasks_after_generate, List.mem_append] at hx
  rcases hx with hx | hx
  · obtain ⟨v, hv, hman, hpar, -, -⟩ := mem_newAutotasks_spec agent policies x hx
    have hvman : v.managed_by_policy = true := by rw [← hman, hxman]
    have hvpp : q ∈ taskParentPks agent :=
      (taskParentPks_mem agent q).mpr ⟨v, hv, hvman, by rw [← hpar, hxq]⟩
    by_cases hacc : q ∈ (acceptedTasks agent policies).map (fun t => some t.pk)
    · exact Or.inl hacc
    · refine Or.inr ?_
      rw [staleTaskParents, List.mem_filter]
      exact ⟨hvpp, by simpa using hacc⟩
  · obtain ⟨t0, ht0, f, rfl⟩ := mem_materializeTasks _ g1 x hx
    refine Or.inl ?_
    have hpt : (create_policy_task f t0).parent_task = some t0.pk := rfl
    rw [← hxq, hpt]
    have ht0acc : t0 ∈ acceptedTasks agent policies := by
      have : t0 ∈ (acceptedTasks agent policies).filter
          (fun t => decide (some t.pk ∉ taskParentPks agent)) := ht0
      exact (List.mem_filter.mp this).1
    exact List.mem_map.mpr ⟨t0, ht0acc, rfl⟩

theorem stale_tasks_pend (g1 : Nat) (agent : CAgent) (policies : AgentPolicies) :
    ∀ t ∈ (generate_policy_tasks g1 agent policies).autotasks,
      t.parent_task ∈
          staleTaskParents (generate_policy_tasks g1 agent policies) policies →
      t.sync_status = "pendingdeletion" := by
  intro t ht hst
  have hfacts := staleTaskParents_not_accepted _ policies _ hst
  rw [acceptedTasks_after_generate] at hfacts
  have hnacc := hfacts.2
  have hstale1 : t.parent_task ∈ staleTaskParents agent policies := by
    rcases taskParents_after_generate_sub g1 agent policies _ hfacts.1 with h | h
    · exact absurd h hnacc
    · exact h
  rw [autotasks_after_generate, List.mem_append] at ht
  rcases ht with ht | ht
  · obtain ⟨v, hv, -, hpar, -, hcase⟩ := mem_newAutotasks_spec agent policies t ht
    rcases hcase with ⟨-, -, hsync⟩ | ⟨-, -, hin, -⟩ | ⟨hnst, -, hxv⟩
    · exact hsync
    · exact absurd (hpar ▸ hin) hnacc
    · rw [hxv] at hstale1
      exact absurd hstale1 hnst
  · exfalso
    obtain ⟨t0, ht0, f, rfl⟩ := mem_materializeTasks _ g1 t ht
    have hpt : (create_policy_task f t0).parent_task = some t0.pk := rfl
    rw [hpt] at hnacc
    have ht0acc : t0 ∈ acceptedTasks agent policies :=
      (List.mem_filter.mp ht0).1
    exact hnacc (List.mem_map.mpr ⟨t0, ht0acc, rfl⟩)

theorem tasksAfterStale_after_generate (g1 : Nat) (agent : CAgent)
    (policies : AgentPolicies) :
    tasksAfterStale (generate_policy_tasks g1 agent policies) policies =
      (generate_policy_tasks g1 agent policies).autotasks := by
  rw [tasksAfterStale]
  apply filterMap_some_self
  intro t ht
  by_cases hst : t.parent_task ∈
      staleTaskParents (generate_policy_tasks g1 agent policies) policies
  · rw [if_pos hst]
    have hpend := stale_tasks_pend g1 agent policies t ht hst
    rw [if_neg (show ¬ t.sync_status = "initial" by rw [hpend]; decide)]
    rw [autotask_set_sync_self t _ hpend]
  · rw [if_neg hst]

theorem newAutotasks_after_generate (g1 : Nat) (agent : CAgent)
    (policies : AgentPolicies) :
    newAutotasks (generate_policy_tasks g1 agent policies) policies =
      (generate_policy_tasks g1 agent policies).autotasks := by
  rw [newAutotasks, tasksAfterStale_after_generate, acceptedTasks_after_generate]
  have hid : ∀ t ∈ (generate_policy_tasks g1 agent policies).autotasks,
      (if t.sync_status = "pendingdeletion" ∧
          t.parent_task ∈ (acceptedTasks agent policies).map
            (fun t2 => some t2.pk)
       then { t with sync_status := "notsynced" } else t) = t := by
    intro t ht
    by_cases hcond : t.sync_status = "pendingdeletion" ∧
        t.parent_task ∈ (acceptedTasks agent policies).map (fun t2 => some t2.pk)
    · exfalso
      rw [autotasks_after_generate, List.mem_append] at ht
      rcases ht with ht | ht
      · obtain ⟨v, hv, -, hpar, -, hcase⟩ :=
          mem_newAutotasks_spec agent policies t ht
        rcases hcase with ⟨hst, -, -⟩ | ⟨-, -, -, hsync⟩ | ⟨-, hncond, hxv⟩
        · exact (staleTaskParents_not_accepted agent policies _ hst).2
            (hpar ▸ hcond.2)
        · rw [hsync] at hcond
          exact absurd hcond.1 (by decide)
        · rw [hxv] at hcond
          exact hncond hcond
      · obtain ⟨t0, -, f, rfl⟩ := mem_materializeTasks _ g1 t ht
        have hs : (create_policy_task f t0).sync_status = "initial" := rfl
        rw [hs] at hcond
        exact absurd hcond.1 (by decide)
    · rw [if_neg hcond]
  calc (generate_policy_tasks g1 agent policies).autotasks.map _ =
      (generate_policy_tasks g1 agent policies).autotasks.map id :=
        List.map_congr_left hid
    _ = _ := List.map_id _

theorem returned_tasks_after_generate (g1 : Nat) (agent : CAgent)
    (policies : AgentPolicies) :
    (cascade_policy_tasks (generate_policy_tasks g1 agent policies)
      policies).returned = [] := by
  show (acceptedTasks (generate_policy_tasks g1 agent policies)
    policies).filter _ = []
  rw [acceptedTasks_after_generate, List.filter_eq_nil_iff]
  intro t ht
  simp only [decide_eq_true_eq, not_not]
  by_cases hin : some t.pk ∈ taskParentPks agent
  · obtain ⟨v, hv, hvman, hvp⟩ := (taskParentPks_mem agent _).mp hin
    have hnst : v.parent_task ∉ staleTaskParents agent policies := by
      intro hst
      exact (staleTaskParents_not_accepted agent policies _ hst).2
        (by rw [hvp]; exact List.mem_map.mpr ⟨t, ht, rfl⟩)
    have hvafter : v ∈ tasksAfterStale agent policies := by
      rw [tasksAfterStale, List.mem_filterMap]
      exact ⟨v, hv, by rw [if_neg hnst]⟩
    by_cases hrev : v.sync_status = "pendingdeletion" ∧
        v.parent_task ∈ (acceptedTasks agent policies).map (fun t2 => some t2.pk)
    · refine (taskParentPks_mem _ _).mpr
        ⟨{ v with sync_status := "notsynced" }, ?_, hvman, hvp⟩
      rw [autotasks_after_generate, List.mem_append]
      refine Or.inl ?_
      rw [newAutotasks, List.mem_map]
      exact ⟨v, hvafter, by rw [if_pos hrev]⟩
    · refine (taskParentPks_mem _ _).mpr ⟨v, ?_, hvman, hvp⟩
      rw [autotasks_after_generate, List.mem_append]
      refine Or.inl ?_
      rw [newAutotasks, List.mem_map]
      exact ⟨v, hvafter, by rw [if_neg hrev]⟩
  · have htret : t ∈ (cascade_policy_tasks agent policies).returned := by
      show t ∈ (acceptedTasks agent policies).filter _
      rw [List.mem_filter]
      exact ⟨ht, by simpa using hin⟩
    have hpk : some t.pk ∈ (materializeTasks g1
        ((cascade_policy_tasks agent policies).returned)).map
          (fun x => x.parent_task) := by
      rw [materializeTasks_parent_pks]
      exact List.mem_map.mpr ⟨t, htret, rfl⟩
    obtain ⟨x, hxmem, hxp⟩ := List.mem_map.mp hpk
    have hxman : x.managed_by_policy = true := by
      obtain ⟨t0, -, f, rfl⟩ := mem_materializeTasks _ g1 x hxmem
      rfl
    refine (taskParentPks_mem _ _).mpr ⟨x, ?_, hxman, hxp⟩
    rw [autotasks_after_generate, List.mem_append]
    exact Or.inr hxmem

theorem generate_tasks_idem (g1 g2 : Nat) (agent : CAgent)
    (policies : AgentPolicies) :
    generate_policy_tasks g2 (generate_policy_tasks g1 agent policies)
        policies =
      generate_policy_tasks g1 agent policies := by
  rw [show generate_policy_tasks g2 (generate_policy_tasks g1 agent policies)
      policies =
    { generate_policy_tasks g1 agent policies with
      autotasks :=
        newAutotasks (generate_policy_tasks g1 agent policies) policies ++
          materializeTasks g2
            ((cascade_policy_tasks (generate_policy_tasks g1 agent policies)
              policies).returned) } from rfl]
  rw [returned_tasks_after_generate, newAutotasks_after_generate]
  rw [show materializeTasks g2 ([] : List AutoTask) = [] from rfl,
    List.append_nil]

/-- C5: running cascade resolution followed by materialization a second time
with unchanged policies and no other state change returns an empty
genuinely-new list from both cascade resolvers and leaves the agent's
materialized check and task tables (and hence the whole agent state)
unchanged, for any primary keys the database hands out. -/
theorem cascade_generate_idempotent (f1 f2 g1 g2 : Nat) (agent : CAgent)
    (policies : AgentPolicies) :
    (cascade_policy_checks (generate_policy_checks f1 agent policies)
        policies).returned = [] ∧
    generate_policy_checks f2 (generate_policy_checks f1 agent policies)
        policies = generate_policy_checks f1 agent policies ∧
    (cascade_policy_tasks (generate_policy_tasks g1 agent policies)
        policies).returned = [] ∧
    generate_policy_tasks g2 (generate_policy_tasks g1 agent policies)
        policies = generate_policy_tasks g1 agent policies :=
  ⟨returned_after_generate f1 agent policies,
   generate_checks_idem f1 f2 agent policies,
   returned_tasks_after_generate g1 agent policies,
   generate_tasks_idem g1 g2 agent policies⟩

/-- C2 amended witness at a concrete agent: the stale synced task moves to
`pendingdeletion` while the stale synced check is deleted outright. -/
theorem retirement_amended_witness :
    (managedTaskSynced ∈ agWithTask.autotasks ∧
      managedTaskSynced.parent_task ∈ staleTaskParents agWithTask stackEmpty ∧
      managedTaskSynced.sync_status ≠ "initial" ∧
      managedSynced.managed_by_policy = true ∧
      managedSynced.parent_check ∈ staleCheckParents agWithTask stackEmpty) ∧
    { managedTaskSynced with sync_status := "pendingdeletion" } ∈
      (cascade_policy_tasks agWithTask stackEmpty).new_autotasks ∧
    managedSynced ∉ (cascade_policy_checks agWithTask stackEmpty).new_agentchecks :=
  ⟨⟨by decide, by decide, by decide, by decide, by decide⟩,
   ((retirement_amended agWithTask stackEmpty).1 managedTaskSynced (by decide)
      (by decide)).2 (by decide),
   (retirement_amended agWithTask stackEmpty).2 managedSynced (by decide)
     (by decide) (by decide)⟩

/-- C3 amended witness at a concrete agent: the pending-deletion task whose
template is accepted again is revived in place to `notsynced`, and the kept
pending-deletion check's sync status is untouched. -/
theorem revival_amended_witness :
    (managedTaskPending ∈ agTaskPending.autotasks ∧
      managedTaskPending.sync_status = "pendingdeletion" ∧
      managedTaskPending.parent_task ∈
        (acceptedTasks agTaskPending stackMix).map (fun t2 => some t2.pk)) ∧
    { managedTaskPending with sync_status := "notsynced" } ∈
      (cascade_policy_tasks agTaskPending stackMix).new_autotasks ∧
    (managedPendingDel ∈
      (cascade_policy_checks agWinPending stackEnforcedOnly).new_agentchecks ∧
     ∃ c0, c0 ∈ agWinPending.agentchecks ∧ managedPendingDel.pk = c0.pk ∧
       managedPendingDel.parent_check = c0.parent_check ∧
       managedPendingDel.sync_status = c0.sync_status) :=
  ⟨⟨by decide, by decide, by decide⟩,
   (revival_amended agTaskPending stackMix).1 managedTaskPending (by decide)
     (by decide) (by decide),
   by decide,
   (revival_amended agWinPending stackEnforcedOnly).2 managedPendingDel
     (by decide)⟩

/-- C4 witness at a concrete windows agent: the enforced ping template wins
the identity collision and the agent's own ping check is flagged overridden
and kept. -/
theorem cascade_precedence_first_occurrence_witness :
    (directPing ∈ agWin.agentchecks ∧ directPing.managed_by_policy = false ∧
      directPing.pk ∈ overriddenChecks agWin stackEnforcedPlain) ∧
    { directPing with overriden_by_policy := true } ∈
      (cascade_policy_checks agWin stackEnforcedPlain).new_agentchecks :=
  ⟨⟨by decide, by decide, by decide⟩,
   (cascade_precedence_first_occurrence agWin stackEnforcedPlain).2.2.2
     directPing (by decide) (by decide) (by decide)⟩

/-- C7 witness at a concrete linux agent: the accepted ping check is none of
the windows-only types, and the accepted task's script shell is supported. -/
theorem platform_filtering_witness :
    (agLinux.plat ≠ "windows" ∧ tmplPing ∈ finalCheckList agLinux stackMix ∧
      (tmplPing.check_type ≠ CheckType.diskspace ∧
        tmplPing.check_type ≠ CheckType.cpuload ∧
        tmplPing.check_type ≠ CheckType.memory ∧
        tmplPing.check_type ≠ CheckType.winsvc ∧
        tmplPing.check_type ≠ CheckType.eventlog)) ∧
    (taskTmpl ∈ acceptedTasks agLinux stackMix ∧
      agLinux.is_supported_script taskTmpl.script.shell = true) :=
  ⟨⟨by decide, by decide,
    (platform_filtering agLinux stackMix).1 (by decide) tmplPing (by decide)⟩,
   ⟨by decide, (platform_filtering agLinux stackMix).2.2 taskTmpl (by decide)⟩⟩

/-- C9 witness at a concrete linux agent: the returned template has a null
agent reference and its pk is not a managed parent. -/
theorem cascade_output_invariant_witness :
    tmplPing ∈ (cascade_policy_checks agLinux stackMix).returned ∧
    (tmplPing.agent = none ∧ some tmplPing.pk ∉ checkParentPks agLinux) :=
  ⟨by decide,
   (cascade_output_invariant agLinux stackMix).1 tmplPing (by decide)⟩

/-- C10 witness at a concrete one-row policy table: a fresh save has no
side effects, and the re-save that flips `active` enqueues the agent
re-resolution because the stored row differs. -/
theorem policy_save_new_no_side_effects_witness :
    save_effects dbOne none pfNew = [] ∧
    (∃ k old, (some 1 : Option Nat) = some k ∧ dbOne k = some old ∧
      ((SaveEffect.generateAgentChecks = SaveEffect.generateAgentChecks ∧
         (old.active ≠ pfNew.active ∨ old.enforced ≠ pfNew.enforced)) ∨
       (SaveEffect.generateAgentChecks = SaveEffect.cacheAlertTemplate ∧
         old.alert_template ≠ pfNew.alert_template))) :=
  ⟨(policy_save_new_no_side_effects dbOne pfNew).1,
   (policy_save_new_no_side_effects dbOne pfNew).2 (some 1)
     SaveEffect.generateAgentChecks (by decide)⟩
